import Mathlib

/-!
Verification of the PKI / certificate-lifecycle engine of the
`smart-meter-simulator` package.

The Python sources embedded here are
`src/smart-meter-simulator/pki_infrastructure.py` (certificate store,
CA bootstrap, device issuance, revocation, CRL generation) and
`src/smart-meter-simulator/certificate_lifecycle.py` (renewal jobs,
health monitoring, alert dispatch).

Modelling conventions:
* timestamps are `Nat` seconds (Python `datetime` values compare like
  their timestamps; `timedelta(days = k)` is `k * 86400` seconds);
* SQLite tables are Lean lists of rows, in rowid order; `INSERT OR
  REPLACE` on a table with a primary key replaces the matching row in
  place (or appends a new row);
* `x509.random_serial_number()` and `rsa.generate_private_key` are
  modelled by a monotone issuance counter: each issuance consumes a
  fresh serial, and the encoded certificate (`certificate_pem`, the key
  material handed to the device) is an ASCII blob determined injectively
  by that serial, mirroring that a freshly generated key and serial make
  the encoded certificate distinct from all earlier ones;
* Python exceptions that abort an operation before any database write
  are modelled with `Except`: an `error` result means the exception
  propagated and the store is untouched.
-/

namespace GridTokenX

/-- Python `x or default` applied to an optional string: both `None` and
the empty string are falsy, so both fall back to the default.  Used for
`cert_record.device_id or 'unknown'` and
`current_cert.template_name or 'smart_meter'`. -/
def pyOrElse : Option String → String → String
  | none, d => d
  | some s, d => if s = "" then d else s

/-- Seconds in a day; `timedelta(days = k)` is `k * secondsPerDay`. -/
def secondsPerDay : Nat := 86400

/-- Blob standing for the PEM-encoded certificate (and the fresh key
material inside it) produced at issuance number `n`.  The encoding is
injective in `n`, mirroring that each issuance generates a fresh RSA key
and serial, so the encoded certificate differs from every earlier one. -/
def keyBlob (n : Nat) : String := String.mk (List.replicate n 'K')

theorem keyBlob_injective {a b : Nat} (h : keyBlob a = keyBlob b) : a = b := by
  have hlen := congrArg String.length h
  simpa [keyBlob, String.length] using hlen

/-- `CertificateTemplate` dataclass from `pki_infrastructure.py`. -/
structure CertificateTemplate where
  name : String
  validity_days : Nat
  key_size : Nat
  key_usage : List (String × Bool)
  extended_key_usage : List String
  subject_alt_names : List String
  critical_extensions : List String
deriving DecidableEq, Repr

/-- The `smart_meter` template of `load_certificate_templates`. -/
def smartMeterTemplate : CertificateTemplate :=
  { name := "smart_meter"
    validity_days := 365
    key_size := 2048
    key_usage := [("digital_signature", true), ("key_encipherment", true),
      ("key_agreement", false), ("key_cert_sign", false), ("crl_sign", false),
      ("content_commitment", false), ("data_encipherment", false),
      ("encipher_only", false), ("decipher_only", false)]
    extended_key_usage := ["client_auth", "server_auth"]
    subject_alt_names := ["dns", "email"]
    critical_extensions := ["key_usage", "extended_key_usage"] }

/-- The `ieee2030_5_server` template of `load_certificate_templates`. -/
def ieee20305ServerTemplate : CertificateTemplate :=
  { name := "ieee2030_5_server"
    validity_days := 730
    key_size := 2048
    key_usage := [("digital_signature", true), ("key_encipherment", true),
      ("key_agreement", false), ("key_cert_sign", false), ("crl_sign", false),
      ("content_commitment", false), ("data_encipherment", false),
      ("encipher_only", false), ("decipher_only", false)]
    extended_key_usage := ["server_auth"]
    subject_alt_names := ["dns"]
    critical_extensions := ["key_usage", "extended_key_usage"] }

/-- The `api_gateway` template of `load_certificate_templates`. -/
def apiGatewayTemplate : CertificateTemplate :=
  { name := "api_gateway"
    validity_days := 365
    key_size := 2048
    key_usage := [("digital_signature", true), ("key_encipherment", true),
      ("key_agreement", false), ("key_cert_sign", false), ("crl_sign", false),
      ("content_commitment", false), ("data_encipherment", false),
      ("encipher_only", false), ("decipher_only", false)]
    extended_key_usage := ["server_auth", "client_auth"]
    subject_alt_names := ["dns"]
    critical_extensions := ["key_usage", "extended_key_usage"] }

/-- `PKIInfrastructure.load_certificate_templates`: the template
dictionary, as a lookup by name. -/
def loadCertificateTemplates (name : String) : Option CertificateTemplate :=
  if name = "smart_meter" then some smartMeterTemplate
  else if name = "ieee2030_5_server" then some ieee20305ServerTemplate
  else if name = "api_gateway" then some apiGatewayTemplate
  else none

/-- `CertificateRecord` dataclass / row of the `certificates` table. -/
structure CertRecord where
  serial_number : Nat
  subject_dn : String
  issuer_dn : String
  not_before : Nat
  not_after : Nat
  status : String
  fingerprint_sha256 : String
  certificate_pem : String
  device_id : Option String := none
  template_name : Option String := none
  revocation_date : Option Nat := none
  revocation_reason : Option String := none
  renewal_count : Nat := 0
deriving DecidableEq, Repr

instance : Inhabited CertRecord :=
  ⟨{ serial_number := 0, subject_dn := "", issuer_dn := "", not_before := 0,
     not_after := 0, status := "", fingerprint_sha256 := "",
     certificate_pem := "" }⟩

/-- `CertificateDatabase.store_certificate`: `INSERT OR REPLACE INTO
certificates` keyed by the `serial_number` primary key — replace the row
with the same serial if one exists, otherwise append a new row. -/
def storeCertificate (db : List CertRecord) (r : CertRecord) : List CertRecord :=
  if db.any (fun c => c.serial_number == r.serial_number) then
    db.map (fun c => if c.serial_number == r.serial_number then r else c)
  else db ++ [r]

/-- `CertificateDatabase.get_certificate`: `SELECT * FROM certificates
WHERE serial_number = ?`, first matching row or `None`. -/
def getCertificate (db : List CertRecord) (sn : Nat) : Option CertRecord :=
  db.find? (fun c => c.serial_number == sn)

/-- Order used by `get_certificates_by_device`: `ORDER BY not_after
DESC`. -/
def byNotAfterDesc (a b : CertRecord) : Prop := b.not_after ≤ a.not_after

instance : DecidableRel byNotAfterDesc := fun a b => by
  unfold byNotAfterDesc; infer_instance

instance : IsTotal CertRecord byNotAfterDesc :=
  ⟨fun a b => by unfold byNotAfterDesc; omega⟩

instance : IsTrans CertRecord byNotAfterDesc :=
  ⟨fun a b c hab hbc => by unfold byNotAfterDesc at *; omega⟩

/-- `CertificateDatabase.get_certificates_by_device`: all rows whose
`device_id` matches, ordered by `not_after` descending. -/
def getCertificatesByDevice (db : List CertRecord) (d : String) : List CertRecord :=
  List.insertionSort byNotAfterDesc (db.filter (fun c => c.device_id == some d))

/-- Row of the `crl_entries` table (`serial_number` primary key). -/
structure CrlEntry where
  serial_number : Nat
  revocation_date : Nat
  reason_code : Nat
deriving DecidableEq, Repr

/-- The `reason_codes` dictionary of `PKIInfrastructure.add_to_crl`,
with its `.get(reason, 0)` default. -/
def reasonCodeOf (reason : String) : Nat :=
  if reason = "unspecified" then 0
  else if reason = "key_compromise" then 1
  else if reason = "ca_compromise" then 2
  else if reason = "affiliation_changed" then 3
  else if reason = "superseded" then 4
  else if reason = "cessation_of_operation" then 5
  else if reason = "certificate_hold" then 6
  else if reason = "privilege_withdrawn" then 9
  else if reason = "aa_compromise" then 10
  else 0

/-- `INSERT OR REPLACE INTO crl_entries` keyed by `serial_number`. -/
def addCrlEntry (es : List CrlEntry) (e : CrlEntry) : List CrlEntry :=
  if es.any (fun x => x.serial_number == e.serial_number) then
    es.map (fun x => if x.serial_number == e.serial_number then e else x)
  else es ++ [e]

/-- Lookup in `crl_entries` by serial (the `LEFT JOIN crl_entries` of
`generate_crl`). -/
def lookupCrlEntry (es : List CrlEntry) (sn : Nat) : Option CrlEntry :=
  es.find? (fun x => x.serial_number == sn)

/-- One revoked-certificate entry of the generated CRL
(`x509.RevokedCertificateBuilder` output). -/
structure CrlRevokedCert where
  serial_number : Nat
  revocation_date : Nat
  reason_code : Nat
deriving DecidableEq, Repr

/-- The source's `x509.ReasonFlags(cert['reason_code'] or 0)` call:
`ReasonFlags` is a string-valued enum (`"unspecified"`,
`"keyCompromise"`, ...), so constructing it from the stored integer
reason code raises `ValueError` for every integer. -/
def reasonFlagsOfCode (code : Nat) : Except String Unit :=
  .error ("ValueError: " ++ toString code ++ " is not a valid ReasonFlags")

/-- The `revoked_cert_list` loop of `PKIInfrastructure.generate_crl`:
select rows with `status = 'revoked'` and build an entry per row from
the row's own `revocation_date` and the `LEFT JOIN`ed
`crl_entries.reason_code` (`cert['reason_code'] or 0` turns a missing
join row into code 0).  `datetime.fromisoformat` raises when the revoked
row has no revocation date, and the `x509.CRLReason(x509.ReasonFlags(...))`
extension raises `ValueError` for every revoked row because the integer
code is not a valid member of the string-valued enum — so the loop
completes only when there are no revoked rows at all. -/
def buildRevokedCertList : List CertRecord → List CrlEntry →
    Except String (List CrlRevokedCert)
  | [], _ => .ok []
  | c :: cs, es =>
    if c.status = "revoked" then
      match c.revocation_date with
      | none => .error "TypeError: fromisoformat: argument must be str"
      | some d =>
        match reasonFlagsOfCode ((lookupCrlEntry es c.serial_number).elim 0
            (fun e => e.reason_code)) with
        | .error e => .error e
        | .ok _ =>
          (buildRevokedCertList cs es).map (fun rest =>
            { serial_number := c.serial_number
              revocation_date := d
              reason_code := (lookupCrlEntry es c.serial_number).elim 0
                (fun e => e.reason_code) } :: rest)
    else buildRevokedCertList cs es

/-- `PKIInfrastructure.generate_crl`: build the revoked list (which
raises on any revoked row, see `buildRevokedCertList`), then call
`.add_revoked_certificate(*revoked_cert_list if revoked_cert_list else
[])` — the splat of the conditional expression, so with an empty list
the one-argument builder method gets no argument (`TypeError`) and with
two or more entries it gets too many; only a one-entry list would pass.
Every path therefore raises, and the source never produces or persists
a CRL. -/
def generateCrl (certs : List CertRecord) (es : List CrlEntry) :
    Except String (List CrlRevokedCert) :=
  match buildRevokedCertList certs es with
  | .error e => .error e
  | .ok [] =>
    .error "TypeError: add_revoked_certificate missing 1 required positional argument"
  | .ok [rc] => .ok [rc]
  | .ok (_ :: _ :: _) =>
    .error "TypeError: add_revoked_certificate takes 2 positional arguments"

/-- State of one PKI deployment: the `certificates` and `crl_entries`
tables, the CRL artifact last written to `crl/ca.crl`, and the issuance
counter standing for the fresh-serial / fresh-key source. -/
structure PKIState where
  certificates : List CertRecord
  crl_entries : List CrlEntry
  crl_artifact : Option (List CrlRevokedCert) := none
  next_serial : Nat := 0
deriving DecidableEq, Repr

/-- The freshly initialised deployment: empty tables, no CRL yet. -/
def initState : PKIState :=
  { certificates := [], crl_entries := [], crl_artifact := none, next_serial := 0 }

/-- The `certificate_authority` configuration block. -/
structure CaConfig where
  country : String
  state : String
  locality : String
  organization : String
  organizational_unit : String
  common_name : String
  validity_days : Nat
deriving DecidableEq, Repr

/-- Distinguished name built from the CA configuration
(`x509.Name([...]).rfc4514_string()`). -/
def caSubjectDn (cfg : CaConfig) : String :=
  "C=" ++ cfg.country ++ ",ST=" ++ cfg.state ++ ",L=" ++ cfg.locality ++
    ",O=" ++ cfg.organization ++ ",OU=" ++ cfg.organizational_unit ++
    ",CN=" ++ cfg.common_name

/-- Issuer DN stamped on device certificates (`self.ca_cert.subject`);
the concrete subject text plays no role in any claim, so the model keeps
it as one constant deployment CA subject. -/
def caIssuerDn : String := "O=GridTokenX,CN=GridTokenX Root CA"

/-- Subject DN of a device certificate: the `device_info` defaults of
`issue_device_certificate` with the device identifier as common name. -/
def deviceSubjectDn (device_id : String) : String :=
  "C=TH,ST=Bangkok,L=Bangkok,O=UTCC University,OU=GridTokenX Smart Meters,CN="
    ++ device_id

/-- `PKIInfrastructure.create_ca_certificate`: generate a fresh CA key
and self-signed certificate, and store its record with status `active`,
template `root_ca` and no device id. -/
def createCaCertificate (s : PKIState) (cfg : CaConfig) (now : Nat) : PKIState :=
  let serial := s.next_serial
  let r : CertRecord :=
    { serial_number := serial
      subject_dn := caSubjectDn cfg
      issuer_dn := caSubjectDn cfg
      not_before := now
      not_after := now + cfg.validity_days * secondsPerDay
      status := "active"
      fingerprint_sha256 := "sha256:" ++ keyBlob serial
      certificate_pem := keyBlob serial
      device_id := none
      template_name := some "root_ca"
      revocation_date := none
      revocation_reason := none
      renewal_count := 0 }
  { s with certificates := storeCertificate s.certificates r
           next_serial := serial + 1 }

/-- `PKIInfrastructure.issue_device_certificate`: resolve the template
(raising `ValueError` on an unknown name, before any state change),
generate a fresh key pair and serial, build the certificate valid from
`now` for `template.validity_days` days, and store a record with status
`active` and `renewal_count = 0`.  Returns the stored record alongside
the new state.  `newDeviceRecord` is the record the call builds and
stores. -/
def newDeviceRecord (s : PKIState) (device_id template_name : String)
    (t : CertificateTemplate) (now : Nat) : CertRecord :=
  { serial_number := s.next_serial
    subject_dn := deviceSubjectDn device_id
    issuer_dn := caIssuerDn
    not_before := now
    not_after := now + t.validity_days * secondsPerDay
    status := "active"
    fingerprint_sha256 := "sha256:" ++ keyBlob s.next_serial
    certificate_pem := keyBlob s.next_serial
    device_id := some device_id
    template_name := some template_name
    revocation_date := none
    revocation_reason := none
    renewal_count := 0 }

def issueDeviceCertificate (s : PKIState) (device_id : String)
    (template_name : String) (now : Nat) :
    Except String (PKIState × CertRecord) :=
  match loadCertificateTemplates template_name with
  | none => .error ("Unknown template: " ++ template_name)
  | some t =>
    let r := newDeviceRecord s device_id template_name t now
    .ok ({ s with certificates := storeCertificate s.certificates r
                  next_serial := s.next_serial + 1 }, r)

/-- `PKIInfrastructure.revoke_certificate`: load the record and raise
`ValueError` (not found) when absent — before any write, so the store is
untouched; otherwise set status `revoked` with the revocation date and
reason, persist the record, add the `crl_entries` row via `add_to_crl`
(with the mapped reason code) and call `generate_crl`.  The result pair
is the database state the call leaves behind together with the
propagated exception when one is raised: because `generate_crl` raises
on every input, the success branch (write the regenerated artifact,
return without error) is never taken — revocation on an existing serial
commits its two writes and then propagates the CRL exception. -/
def revokeCertificate (s : PKIState) (serial_number : Nat) (reason : String)
    (now : Nat) : PKIState × Option String :=
  match getCertificate s.certificates serial_number with
  | none => (s, some ("Certificate not found: " ++ toString serial_number))
  | some r =>
    let r' := { r with status := "revoked", revocation_date := some now,
                       revocation_reason := some reason }
    let certs := storeCertificate s.certificates r'
    let entries := addCrlEntry s.crl_entries
      { serial_number := serial_number, revocation_date := now,
        reason_code := reasonCodeOf reason }
    let s' := { s with certificates := certs, crl_entries := entries }
    match generateCrl certs entries with
    | .error e => (s', some e)
    | .ok crl => ({ s' with crl_artifact := some crl }, none)

/-- Template-name fallback `current_cert.template_name or 'smart_meter'`. -/
def resolveTemplateName (t : Option String) : String := pyOrElse t "smart_meter"

/-- The re-saved copy of a fetched record with its renewal counter set
(`new_cert.renewal_count = current_cert.renewal_count + 1`). -/
def withRenewalCount (r : CertRecord) (n : Nat) : CertRecord :=
  { r with renewal_count := n }

/-- Renewal of one device's certificate — the shared logic of
`PKIInfrastructure.renew_device_certificate` and
`CertificateRenewalManager.process_single_renewal`: fetch the device's
records (most recent first) and fail when there are none; issue a new
certificate with the current record's template; re-fetch and take the
head as the new record; re-save it with `renewal_count` one more than
the old record's; when `revoke_old` is configured, revoke the old record
with reason `superseded`.  The result pair is the database state the
call leaves behind together with the propagated exception when one is
raised: the callers wrap the call in `try/except`, so an exception out
of the revoke step (which `generate_crl` always raises) makes the
attempt a failure while the committed writes — the new record, its
renewal count, the revoked old record and its CRL entry — remain. -/
def renewDeviceCertificate (s : PKIState) (device_id : String) (now : Nat)
    (revoke_old : Bool) : PKIState × Option String :=
  match getCertificatesByDevice s.certificates device_id with
  | [] => (s, some ("No certificates found for device " ++ device_id))
  | current :: _ =>
    match issueDeviceCertificate s device_id
        (resolveTemplateName current.template_name) now with
    | .error e => (s, some e)
    | .ok (s1, _) =>
      match getCertificatesByDevice s1.certificates device_id with
      | [] => (s1, some ("No certificates found for device " ++ device_id))
      | newest :: _ =>
        let newCert := withRenewalCount newest (current.renewal_count + 1)
        let s2 := { s1 with certificates := storeCertificate s1.certificates newCert }
        if revoke_old then revokeCertificate s2 current.serial_number "superseded" now
        else (s2, none)

/-- One operation of the PKI engine on the certificate store: CA
bootstrap, device issuance, revocation, or renewal. -/
inductive Step : PKIState → PKIState → Prop
  | bootstrap (cfg : CaConfig) (now : Nat) (s : PKIState) :
      Step s (createCaCertificate s cfg now)
  | issue (device_id template_name : String) (now : Nat) (s s' : PKIState)
      (r : CertRecord)
      (h : issueDeviceCertificate s device_id template_name now = .ok (s', r)) :
      Step s s'
  | revoke (serial_number : Nat) (reason : String) (now : Nat) (s : PKIState) :
      Step s (revokeCertificate s serial_number reason now).1
  | renew (device_id : String) (now : Nat) (revoke_old : Bool) (s : PKIState) :
      Step s (renewDeviceCertificate s device_id now revoke_old).1

/-- States reachable from the fresh deployment through the engine's
operations. -/
inductive Reachable : PKIState → Prop
  | init : Reachable initState
  | step {s s' : PKIState} : Reachable s → Step s s' → Reachable s'

/-- No two rows of the `certificates` table share a serial number. -/
def SerialsNodup (s : PKIState) : Prop :=
  (s.certificates.map CertRecord.serial_number).Nodup

/-- Every stored serial was consumed from the issuance counter, so the
next serial is fresh. -/
def SerialBound (s : PKIState) : Prop :=
  ∀ r ∈ s.certificates, r.serial_number < s.next_serial

/-- Consistency of one certificate row against the `crl_entries` table:
if the row is revoked it carries its revocation date and reason, and the
`crl_entries` row for its serial carries the mapped reason code. -/
def RecordCrlOk (es : List CrlEntry) (r : CertRecord) : Prop :=
  r.status = "revoked" →
    r.revocation_date.isSome = true ∧ r.revocation_reason.isSome = true ∧
      (lookupCrlEntry es r.serial_number).map CrlEntry.reason_code
        = some (reasonCodeOf (r.revocation_reason.getD "unspecified"))

/-- Every revoked row carries its revocation date and reason, and the
`crl_entries` row for its serial carries the mapped reason code. -/
def CrlConsistent (s : PKIState) : Prop :=
  ∀ r ∈ s.certificates, RecordCrlOk s.crl_entries r

/-- Invariant maintained by every operation of the engine. -/
def Inv (s : PKIState) : Prop := SerialsNodup s ∧ SerialBound s ∧ CrlConsistent s

instance (es : List CrlEntry) (r : CertRecord) : Decidable (RecordCrlOk es r) := by
  unfold RecordCrlOk; infer_instance

instance (s : PKIState) : Decidable (CrlConsistent s) := by
  unfold CrlConsistent; exact List.decidableBAll _ _

instance (s : PKIState) : Decidable (SerialsNodup s) := by
  unfold SerialsNodup; infer_instance

instance (s : PKIState) : Decidable (SerialBound s) := by
  unfold SerialBound; exact List.decidableBAll _ _

instance (s : PKIState) : Decidable (Inv s) := by
  unfold Inv; infer_instance

/-! ### Renewal manager (`certificate_lifecycle.py`, `CertificateRenewalManager`) -/

/-- `RenewalJob` dataclass / row of the `renewal_jobs` table. -/
structure RenewalJob where
  device_id : String
  serial_number : Nat
  expiry_date : Nat
  priority : String
  renewal_attempts : Nat := 0
  max_attempts : Nat := 3
  last_attempt : Option Nat := none
  status : String := "pending"
deriving DecidableEq, Repr

/-- `CertificateRenewalManager.schedule_renewal`: build a fresh job with
the dataclass defaults and `INSERT` it — a plain insert with an
autoincrement id, so a new row is always appended, whatever rows already
exist for the device. -/
def scheduleRenewal (db : List RenewalJob) (device_id : String)
    (serial_number : Nat) (expiry_date : Nat) (priority : String) :
    List RenewalJob :=
  db ++ [{ device_id := device_id, serial_number := serial_number,
           expiry_date := expiry_date, priority := priority }]

/-- `CertificateRenewalManager.load_pending_jobs`: `SELECT * FROM
renewal_jobs WHERE status = 'pending'`. -/
def loadPendingJobs (db : List RenewalJob) : List RenewalJob :=
  db.filter (fun j => j.status == "pending")

/-- `CertificateRenewalManager.update_job`: `UPDATE renewal_jobs SET
renewal_attempts, last_attempt, status WHERE device_id = ? AND
serial_number = ?` — every row matching the pair is updated. -/
def updateJob (db : List RenewalJob) (job : RenewalJob) : List RenewalJob :=
  db.map (fun r =>
    if r.device_id == job.device_id && r.serial_number == job.serial_number then
      { r with renewal_attempts := job.renewal_attempts,
               last_attempt := job.last_attempt, status := job.status }
    else r)

/-- The `priority_order` dictionary `{'critical': 0, 'high': 1,
'medium': 2, 'low': 3}` with its `.get(p, 3)` default. -/
def priorityVal (p : String) : Nat :=
  if p = "critical" then 0
  else if p = "high" then 1
  else if p = "medium" then 2
  else 3

/-- Sort key of `process_renewal_jobs`: priority rank first, then expiry
date ascending. -/
def jobLe (a b : RenewalJob) : Prop :=
  priorityVal a.priority < priorityVal b.priority ∨
    (priorityVal a.priority = priorityVal b.priority ∧ a.expiry_date ≤ b.expiry_date)

instance : DecidableRel jobLe := fun a b => by unfold jobLe; infer_instance

instance : IsTotal RenewalJob jobLe := ⟨fun a b => by unfold jobLe; omega⟩

instance : IsTrans RenewalJob jobLe :=
  ⟨fun a b c hab hbc => by unfold jobLe at *; omega⟩

/-- `self.renewal_jobs.sort(key = lambda x: (priority_order.get(
x.priority, 3), x.expiry_date))`: Python's stable sort, which insertion
sort with a total preorder reproduces. -/
def sortJobs (jobs : List RenewalJob) : List RenewalJob :=
  List.insertionSort jobLe jobs

/-- Key identifying a job row in `update_job`'s WHERE clause. -/
def jobKey (j : RenewalJob) : String × Nat := (j.device_id, j.serial_number)

/-- Observable events of one renewal-processing pass: a renewal attempt
(`process_single_renewal` call), a `renewal_failed` alert, a
`renewal_completed` alert. -/
inductive RenewalEvent where
  | attempted (device_id : String) (serial_number : Nat)
  | failedAlert (device_id : String) (serial_number : Nat)
  | completedAlert (device_id : String) (serial_number : Nat)
deriving DecidableEq, Repr

/-- The `(device, serial)` key an event is about. -/
def RenewalEvent.key : RenewalEvent → String × Nat
  | .attempted d sn => (d, sn)
  | .failedAlert d sn => (d, sn)
  | .completedAlert d sn => (d, sn)

/-- `CertificateRenewalManager.process_single_renewal`: run the renewal
(the shared logic in `renewDeviceCertificate`); every exception is
caught and turned into a `False` result, while the writes the renewal
already committed to the database remain. -/
def processSingleRenewal (pki : PKIState) (job : RenewalJob) (now : Nat)
    (revoke_old : Bool) : PKIState × Bool :=
  match renewDeviceCertificate pki job.device_id now revoke_old with
  | (s', none) => (s', true)
  | (s', some _) => (s', false)

/-- Accumulator of the `for job in self.renewal_jobs` loop. -/
structure PassState where
  jobs_db : List RenewalJob
  pki : PKIState
  events : List RenewalEvent
  handled : List RenewalJob
deriving Repr

/-- Body of the loop in `process_renewal_jobs`: skip non-pending jobs;
a job whose attempts reached `max_attempts` is marked failed, updated,
and a `renewal_failed` alert is sent; otherwise the renewal is
attempted, on success the job is completed with a `renewal_completed`
alert, on failure the attempt counter and timestamp are bumped and the
job stays pending; either way the row is updated. -/
def renewalStep (now : Nat) (revoke_old : Bool) (st : PassState)
    (job : RenewalJob) : PassState :=
  if job.status ≠ "pending" then st
  else if job.renewal_attempts ≥ job.max_attempts then
    let j := { job with status := "failed" }
    { st with jobs_db := updateJob st.jobs_db j
              events := st.events ++ [.failedAlert job.device_id job.serial_number]
              handled := st.handled ++ [job] }
  else
    match processSingleRenewal st.pki job now revoke_old with
    | (pki', true) =>
      let j := { job with status := "completed" }
      { jobs_db := updateJob st.jobs_db j
        pki := pki'
        events := st.events ++ [.attempted job.device_id job.serial_number,
          .completedAlert job.device_id job.serial_number]
        handled := st.handled ++ [job] }
    | (pki', false) =>
      let j := { job with renewal_attempts := job.renewal_attempts + 1,
                          last_attempt := some now }
      { jobs_db := updateJob st.jobs_db j
        pki := pki'
        events := st.events ++ [.attempted job.device_id job.serial_number]
        handled := st.handled ++ [job] }

/-- `CertificateRenewalManager.process_renewal_jobs`: load the pending
jobs, sort them by priority then expiry, and process them one after the
other (a sequential `for` loop). -/
def processRenewalJobs (db : List RenewalJob) (pki : PKIState) (now : Nat)
    (revoke_old : Bool) : PassState :=
  (sortJobs (loadPendingJobs db)).foldl (renewalStep now revoke_old)
    { jobs_db := db, pki := pki, events := [], handled := [] }

/-- Aggregate result of several renewal-processing passes. -/
structure MultiPass where
  jobs_db : List RenewalJob
  pki : PKIState
  events : List RenewalEvent
deriving Repr

/-- Repeated processing passes of the renewal-processing loop, with the
events of all passes concatenated. -/
def runPasses : Nat → List RenewalJob → PKIState → Nat → Bool → MultiPass
  | 0, db, pki, _, _ => { jobs_db := db, pki := pki, events := [] }
  | n + 1, db, pki, now, revoke_old =>
    let st := processRenewalJobs db pki now revoke_old
    let rest := runPasses n st.jobs_db st.pki now revoke_old
    { jobs_db := rest.jobs_db, pki := rest.pki, events := st.events ++ rest.events }

/-- First row with the given `(device, serial)` key. -/
def findJobByKey (db : List RenewalJob) (k : String × Nat) : Option RenewalJob :=
  db.find? (fun r => r.device_id == k.1 && r.serial_number == k.2)

/-- Status of the (first) row with the given key. -/
def statusByKey (db : List RenewalJob) (k : String × Nat) : Option String :=
  (findJobByKey db k).map RenewalJob.status

/-- Does a renewal event carry the given key? -/
def eventTouches (k : String × Nat) (e : RenewalEvent) : Bool :=
  decide (e.key = k)

/-- Is the event a `renewal_failed` alert for the given key? -/
def isFailedAlertFor (k : String × Nat) : RenewalEvent → Bool
  | .failedAlert d sn => decide ((d, sn) = k)
  | _ => false

/-- Is the event a renewal attempt for the given key? -/
def isAttemptFor (k : String × Nat) : RenewalEvent → Bool
  | .attempted d sn => decide ((d, sn) = k)
  | _ => false

/-- No two rows of the `renewal_jobs` table share a `(device, serial)`
key. -/
def JobKeysNodup (db : List RenewalJob) : Prop := (db.map jobKey).Nodup

/-! ### Health monitor (`certificate_lifecycle.py`, `CertificateHealthMonitor`) -/

/-- `CertificateAlert` dataclass / row of the `alerts` table. -/
structure CertificateAlert where
  alert_type : String
  device_id : String
  serial_number : Nat
  message : String
  severity : String
  timestamp : Nat
  acknowledged : Bool := false
deriving DecidableEq, Repr

/-- Alert built for one record by `check_certificate_health`, when the
record triggers one: a `critical` `certificate_expired` alert when the
record is past `not_after` while its status still reads `active`, or a
`certificate_expiring` alert (severity from days until expiry: at most
7 days critical, at most 14 warning, else info) when an active record
expires within the 30-day threshold. -/
def alertFor (r : CertRecord) (now : Nat) : Option CertificateAlert :=
  if r.not_after < now then
    if r.status = "active" then
      some { alert_type := "certificate_expired"
             device_id := pyOrElse r.device_id "unknown"
             serial_number := r.serial_number
             message := "Certificate expired on " ++ toString r.not_after
             severity := "critical"
             timestamp := now }
    else none
  else if r.not_after < now + 30 * secondsPerDay ∧ r.status = "active" then
    let days := (r.not_after - now) / secondsPerDay
    some { alert_type := "certificate_expiring"
           device_id := pyOrElse r.device_id "unknown"
           serial_number := r.serial_number
           message := "Certificate expires in " ++ toString days ++ " days"
           severity := if days ≤ 7 then "critical"
                       else if days ≤ 14 then "warning" else "info"
           timestamp := now }
  else none

/-- All alerts one scan generates, in table order. -/
def genAlerts (certs : List CertRecord) (now : Nat) : List CertificateAlert :=
  certs.filterMap (fun r => alertFor r now)

/-- Classification a scan assigns to a record: past `not_after` is
`expired`; otherwise an active record inside the 30-day window is
`expiring`; everything else is left `active`. -/
def classifyRecord (r : CertRecord) (now : Nat) : String :=
  if r.not_after < now then "expired"
  else if r.not_after < now + 30 * secondsPerDay ∧ r.status = "active" then
    "expiring"
  else "active"

/-- Observable events of the health scan for one alert: a notification
dispatch attempt (`send_alert`) and the database insert
(`store_alert`). -/
inductive HealthEvent where
  | dispatch (a : CertificateAlert)
  | persist (a : CertificateAlert)
deriving DecidableEq, Repr

/-- `CertificateHealthMonitor.check_certificate_health`: walk all
certificate rows; for each record that triggers an alert, first `await
send_alert(alert)` (the dispatch attempt) and then `store_alert(alert)`
(the `INSERT INTO alerts`), in that order.  Returns the alerts table
after the scan and the event trace. -/
def checkCertificateHealth : List CertRecord → List CertificateAlert → Nat →
    List CertificateAlert × List HealthEvent
  | [], alertsDb, _ => (alertsDb, [])
  | r :: rs, alertsDb, now =>
    match alertFor r now with
    | some a =>
      let (db', evs) := checkCertificateHealth rs (alertsDb ++ [a]) now
      (db', .dispatch a :: .persist a :: evs)
    | none => checkCertificateHealth rs alertsDb now

/-- The health report counters of `check_certificate_health` (the
`health_report` dictionary). -/
structure HealthReport where
  total_certificates : Nat
  active_certificates : Nat
  revoked_certificates : Nat
  expired_certificates : Nat
  expiring_soon : Nat
  alerts_generated : Nat
  timestamp : Nat
deriving DecidableEq, Repr

/-- The counters accumulated by one scan over the `certificates`
table. -/
def healthReport (certs : List CertRecord) (now : Nat) : HealthReport :=
  { total_certificates := certs.length
    active_certificates := (certs.filter (fun r => r.status == "active")).length
    revoked_certificates := (certs.filter (fun r => r.status == "revoked")).length
    expired_certificates := (certs.filter (fun r => decide (r.not_after < now))).length
    expiring_soon := (certs.filter (fun r =>
      !decide (r.not_after < now) &&
        decide (r.not_after < now + 30 * secondsPerDay) &&
        r.status == "active")).length
    alerts_generated := (genAlerts certs now).length
    timestamp := now }

/-- The property claimed of the health monitor's event trace: the record
is persisted before any dispatch attempt, so a dispatch of an alert is
always preceded by its persistence. -/
def PersistedBeforeDispatch (tr : List HealthEvent) : Prop :=
  ∀ i a, tr.get? i = some (.dispatch a) →
    ∃ j, j < i ∧ tr.get? j = some (.persist a)

/-! ### Lemmas about the keyed tables -/

theorem mem_storeCertificate {db : List CertRecord} {r x : CertRecord}
    (hx : x ∈ storeCertificate db r) : x = r ∨ x ∈ db := by
  unfold storeCertificate at hx
  split at hx
  · rcases List.mem_map.1 hx with ⟨a, ha, hax⟩
    by_cases h : (a.serial_number == r.serial_number) = true
    · rw [if_pos h] at hax; exact Or.inl hax.symm
    · rw [if_neg h] at hax; exact Or.inr (hax ▸ ha)
  · rcases List.mem_append.1 hx with h | h
    · exact Or.inr h
    · exact Or.inl (List.mem_singleton.1 h)

theorem mem_storeCertificate_serial {db : List CertRecord} {r x : CertRecord}
    (hx : x ∈ storeCertificate db r)
    (hs : x.serial_number = r.serial_number) : x = r := by
  unfold storeCertificate at hx
  split at hx
  next _ =>
    rcases List.mem_map.1 hx with ⟨a, ha, hax⟩
    by_cases hc : (a.serial_number == r.serial_number) = true
    · rw [if_pos hc] at hax; exact hax.symm
    · rw [if_neg hc] at hax
      have : a.serial_number = r.serial_number := by rw [hax]; exact hs
      exact absurd (beq_iff_eq.2 this) hc
  next h =>
    have h' : ∀ x ∈ db, ¬ x.serial_number = r.serial_number := by simpa using h
    rcases List.mem_append.1 hx with hmem | hmem
    · exact absurd hs (h' x hmem)
    · exact List.mem_singleton.1 hmem

theorem storeCertificate_map_serial (db : List CertRecord) (r : CertRecord) :
    (storeCertificate db r).map CertRecord.serial_number =
      if db.any (fun c => c.serial_number == r.serial_number) then
        db.map CertRecord.serial_number
      else db.map CertRecord.serial_number ++ [r.serial_number] := by
  unfold storeCertificate
  split
  next _ =>
    rw [List.map_map]
    refine List.map_congr_left (fun a _ => ?_)
    by_cases hc : (a.serial_number == r.serial_number) = true
    · simp only [Function.comp_apply, if_pos hc]
      exact (beq_iff_eq.1 hc).symm
    · simp only [Function.comp_apply, if_neg hc]
  next _ => simp

theorem getCertificate_storeCertificate_self (db : List CertRecord)
    (r : CertRecord) :
    getCertificate (storeCertificate db r) r.serial_number = some r := by
  unfold storeCertificate getCertificate
  split
  next h =>
    rw [List.find?_map]
    have hf : ((fun c : CertRecord => c.serial_number == r.serial_number) ∘
        (fun c => if (c.serial_number == r.serial_number) = true then r else c)) =
        (fun c : CertRecord => c.serial_number == r.serial_number) := by
      funext c
      by_cases hc : (c.serial_number == r.serial_number) = true
      · simp only [Function.comp_apply]
        rw [if_pos hc, hc]
        simp
      · simp only [Function.comp_apply]
        rw [if_neg hc]
    rw [hf]
    obtain ⟨x, hx, hpx⟩ := List.any_eq_true.1 h
    cases hfind : db.find? (fun c => c.serial_number == r.serial_number) with
    | none =>
      exact absurd hpx (by simpa using List.find?_eq_none.1 hfind x hx)
    | some c₀ =>
      have hp : (c₀.serial_number == r.serial_number) = true := by
        simpa using List.find?_some hfind
      simp only [Option.map_some', if_pos hp]
  next h =>
    have h' : db.any (fun c => c.serial_number == r.serial_number) = false := by
      simpa using h
    rw [List.find?_append, List.find?_eq_none.2
      (fun a ha => by simpa using List.any_eq_false.1 h' a ha)]
    simp

theorem getCertificate_storeCertificate_ne (db : List CertRecord)
    (r : CertRecord) {sn : Nat} (hsn : sn ≠ r.serial_number) :
    getCertificate (storeCertificate db r) sn = getCertificate db sn := by
  unfold storeCertificate getCertificate
  split
  next _ =>
    rw [List.find?_map]
    have hf : ((fun c : CertRecord => c.serial_number == sn) ∘
        (fun c => if (c.serial_number == r.serial_number) = true then r else c)) =
        (fun c : CertRecord => c.serial_number == sn) := by
      funext c
      by_cases hc : (c.serial_number == r.serial_number) = true
      · have hcr := beq_iff_eq.1 hc
        simp only [Function.comp_apply, if_pos hc]
        have h1 : (r.serial_number == sn) = false := by
          simpa using fun hh => hsn (hh.symm)
        have h2 : (c.serial_number == sn) = false := by
          rw [hcr]; exact h1
        rw [h1, h2]
      · simp only [Function.comp_apply, if_neg hc]
    rw [hf]
    cases hfind : db.find? (fun c => c.serial_number == sn) with
    | none => simp
    | some c₀ =>
      have hp : c₀.serial_number = sn := by
        simpa using List.find?_some hfind
      have hne : ¬ (c₀.serial_number == r.serial_number) = true := by
        rw [hp]; simpa using hsn
      simp only [Option.map_some', if_neg hne]
  next _ =>
    rw [List.find?_append]
    have h1 : ¬ (r.serial_number == sn) = true := by
      simpa using fun hh => hsn (hh.symm)
    cases hfind : db.find? (fun c => c.serial_number == sn) with
    | none =>
      have h2 : List.find? (fun c : CertRecord => c.serial_number == sn) [r] = none :=
        List.find?_eq_none.2 (fun a ha => by rw [List.mem_singleton.1 ha]; exact h1)
      rw [h2]
      simp
    | some c₀ => simp

theorem lookupCrlEntry_addCrlEntry_self (es : List CrlEntry) (e : CrlEntry) :
    lookupCrlEntry (addCrlEntry es e) e.serial_number = some e := by
  unfold addCrlEntry lookupCrlEntry
  split
  next h =>
    rw [List.find?_map]
    have hf : ((fun x : CrlEntry => x.serial_number == e.serial_number) ∘
        (fun x => if (x.serial_number == e.serial_number) = true then e else x)) =
        (fun x : CrlEntry => x.serial_number == e.serial_number) := by
      funext c
      by_cases hc : (c.serial_number == e.serial_number) = true
      · simp only [Function.comp_apply]
        rw [if_pos hc, hc]
        simp
      · simp only [Function.comp_apply]
        rw [if_neg hc]
    rw [hf]
    obtain ⟨x, hx, hpx⟩ := List.any_eq_true.1 h
    cases hfind : es.find? (fun x => x.serial_number == e.serial_number) with
    | none =>
      exact absurd hpx (by simpa using List.find?_eq_none.1 hfind x hx)
    | some c₀ =>
      have hp : (c₀.serial_number == e.serial_number) = true := by
        simpa using List.find?_some hfind
      simp only [Option.map_some', if_pos hp]
  next h =>
    have h' : es.any (fun x => x.serial_number == e.serial_number) = false := by
      simpa using h
    rw [List.find?_append, List.find?_eq_none.2
      (fun a ha => by simpa using List.any_eq_false.1 h' a ha)]
    simp

theorem lookupCrlEntry_addCrlEntry_ne (es : List CrlEntry) (e : CrlEntry)
    {sn : Nat} (hsn : sn ≠ e.serial_number) :
    lookupCrlEntry (addCrlEntry es e) sn = lookupCrlEntry es sn := by
  unfold addCrlEntry lookupCrlEntry
  split
  next _ =>
    rw [List.find?_map]
    have hf : ((fun x : CrlEntry => x.serial_number == sn) ∘
        (fun x => if (x.serial_number == e.serial_number) = true then e else x)) =
        (fun x : CrlEntry => x.serial_number == sn) := by
      funext c
      by_cases hc : (c.serial_number == e.serial_number) = true
      · have hcr := beq_iff_eq.1 hc
        simp only [Function.comp_apply, if_pos hc]
        have h1 : (e.serial_number == sn) = false := by
          simpa using fun hh => hsn (hh.symm)
        have h2 : (c.serial_number == sn) = false := by
          rw [hcr]; exact h1
        rw [h1, h2]
      · simp only [Function.comp_apply, if_neg hc]
    rw [hf]
    cases hfind : es.find? (fun x => x.serial_number == sn) with
    | none => simp
    | some c₀ =>
      have hp : c₀.serial_number = sn := by
        simpa using List.find?_some hfind
      have hne : ¬ (c₀.serial_number == e.serial_number) = true := by
        rw [hp]; simpa using hsn
      simp only [Option.map_some', if_neg hne]
  next _ =>
    rw [List.find?_append]
    have h1 : ¬ (e.serial_number == sn) = true := by
      simpa using fun hh => hsn (hh.symm)
    cases hfind : es.find? (fun x => x.serial_number == sn) with
    | none =>
      have h2 : List.find? (fun x : CrlEntry => x.serial_number == sn) [e] = none :=
        List.find?_eq_none.2 (fun a ha => by rw [List.mem_singleton.1 ha]; exact h1)
      rw [h2]
      simp
    | some c₀ => simp

theorem any_serial_eq_false_of_bound {db : List CertRecord} {n : Nat}
    (h : ∀ c ∈ db, c.serial_number < n) :
    db.any (fun c => c.serial_number == n) = false := by
  rw [List.any_eq_false]
  intro c hc
  have := h c hc
  simp only [beq_iff_eq]
  omega

theorem getCertificate_mem {db : List CertRecord} {sn : Nat} {r : CertRecord}
    (h : getCertificate db sn = some r) :
    r ∈ db ∧ r.serial_number = sn := by
  unfold getCertificate at h
  exact ⟨List.mem_of_find?_eq_some h, by simpa using List.find?_some h⟩

/-! ### Operation shapes -/

theorem issueDeviceCertificate_ok {s : PKIState} {d tn : String} {now : Nat}
    {s' : PKIState} {r : CertRecord}
    (h : issueDeviceCertificate s d tn now = .ok (s', r)) :
    ∃ t, loadCertificateTemplates tn = some t ∧
      r = newDeviceRecord s d tn t now ∧
      s' = { s with certificates := storeCertificate s.certificates r
                    next_serial := s.next_serial + 1 } := by
  unfold issueDeviceCertificate at h
  cases ht : loadCertificateTemplates tn with
  | none => rw [ht] at h; exact absurd h (by simp)
  | some t =>
    rw [ht] at h
    refine ⟨t, rfl, ?_, ?_⟩
    · have := Except.ok.inj h
      exact ((Prod.mk.injEq _ _ _ _).mp this).2.symm
    · have h12 := Except.ok.inj h
      have h1 := ((Prod.mk.injEq _ _ _ _).mp h12).1
      have h2 := ((Prod.mk.injEq _ _ _ _).mp h12).2
      rw [← h1, ← h2]

theorem buildRevokedCertList_ok {certs : List CertRecord} {es : List CrlEntry}
    {lst : List CrlRevokedCert} (h : buildRevokedCertList certs es = .ok lst) :
    lst = [] := by
  induction certs generalizing lst with
  | nil =>
    unfold buildRevokedCertList at h
    exact (Except.ok.inj h).symm
  | cons c cs ih =>
    unfold buildRevokedCertList at h
    split at h
    · split at h
      · exact absurd h (by simp)
      · split at h
        · exact absurd h (by simp)
        next u heq => exact absurd heq (by simp [reasonFlagsOfCode])
    · exact ih h

theorem generateCrl_always_errors (certs : List CertRecord) (es : List CrlEntry) :
    ∃ e, generateCrl certs es = .error e := by
  unfold generateCrl
  cases hb : buildRevokedCertList certs es with
  | error e => exact ⟨e, rfl⟩
  | ok lst =>
    have hnil := buildRevokedCertList_ok hb
    subst hnil
    exact ⟨_, rfl⟩

theorem revokeCertificate_notfound {s : PKIState} {sn : Nat} {reason : String}
    {now : Nat} (h : getCertificate s.certificates sn = none) :
    revokeCertificate s sn reason now =
      (s, some ("Certificate not found: " ++ toString sn)) := by
  unfold revokeCertificate
  rw [h]

theorem revokeCertificate_found {s : PKIState} {sn : Nat} (reason : String)
    (now : Nat) {r : CertRecord}
    (hget : getCertificate s.certificates sn = some r) :
    (revokeCertificate s sn reason now).1.certificates =
      storeCertificate s.certificates
        { r with status := "revoked", revocation_date := some now,
                 revocation_reason := some reason } ∧
    (revokeCertificate s sn reason now).1.crl_entries =
      addCrlEntry s.crl_entries
        { serial_number := sn, revocation_date := now,
          reason_code := reasonCodeOf reason } ∧
    (revokeCertificate s sn reason now).1.crl_artifact = s.crl_artifact ∧
    (revokeCertificate s sn reason now).1.next_serial = s.next_serial ∧
    (revokeCertificate s sn reason now).2.isSome = true := by
  unfold revokeCertificate
  rw [hget]
  dsimp only
  obtain ⟨e, he⟩ := generateCrl_always_errors
    (storeCertificate s.certificates
      { r with status := "revoked", revocation_date := some now,
               revocation_reason := some reason })
    (addCrlEntry s.crl_entries
      { serial_number := sn, revocation_date := now,
        reason_code := reasonCodeOf reason })
  rw [he]
  exact ⟨rfl, rfl, rfl, rfl, rfl⟩

theorem revokeCertificate_never_succeeds (s : PKIState) (sn : Nat)
    (reason : String) (now : Nat) :
    (revokeCertificate s sn reason now).2.isSome = true := by
  cases hget : getCertificate s.certificates sn with
  | none => rw [revokeCertificate_notfound hget]; rfl
  | some r => exact (revokeCertificate_found reason now hget).2.2.2.2

theorem head_getCertificatesByDevice_mem {db : List CertRecord} {d : String}
    {c : CertRecord} {rest : List CertRecord}
    (h : getCertificatesByDevice db d = c :: rest) :
    c ∈ db ∧ c.device_id = some d := by
  have hc : c ∈ getCertificatesByDevice db d := by rw [h]; exact List.mem_cons_self _ _
  unfold getCertificatesByDevice at hc
  rw [List.mem_insertionSort] at hc
  have := List.mem_filter.1 hc
  exact ⟨this.1, by simpa using this.2⟩

/-! ### Invariant preservation -/

theorem recordCrlOk_addCrlEntry_ne {es : List CrlEntry} {e : CrlEntry}
    {r : CertRecord} (h : RecordCrlOk es r)
    (hne : r.serial_number ≠ e.serial_number) :
    RecordCrlOk (addCrlEntry es e) r := by
  intro hrev
  obtain ⟨h1, h2, h3⟩ := h hrev
  exact ⟨h1, h2, by rw [lookupCrlEntry_addCrlEntry_ne es e hne]; exact h3⟩

theorem inv_insert_fresh {s : PKIState} (hInv : Inv s) {r : CertRecord}
    (hserial : r.serial_number = s.next_serial) (hstatus : r.status ≠ "revoked") :
    Inv { s with certificates := storeCertificate s.certificates r
                 next_serial := s.next_serial + 1 } := by
  obtain ⟨hnd, hb, hcrl⟩ := hInv
  have hany : s.certificates.any (fun c => c.serial_number == r.serial_number)
      = false := by
    rw [hserial]
    exact any_serial_eq_false_of_bound hb
  refine ⟨?_, ?_, ?_⟩
  · unfold SerialsNodup at hnd ⊢
    simp only []
    rw [storeCertificate_map_serial, if_neg (by simp [hany])]
    rw [List.nodup_append]
    refine ⟨hnd, by simp, ?_⟩
    intro a ha hb'
    have ha' : a = r.serial_number := by simpa using hb'
    rcases List.mem_map.1 ha with ⟨c, hc, hcs⟩
    have := hb c hc
    omega
  · intro x hx
    rcases mem_storeCertificate hx with hxr | hxm
    · subst hxr
      show x.serial_number < s.next_serial + 1
      omega
    · have := hb x hxm
      show x.serial_number < s.next_serial + 1
      omega
  · intro x hx
    rcases mem_storeCertificate hx with hxr | hxm
    · subst hxr
      intro hrev
      exact absurd hrev hstatus
    · exact hcrl x hxm

theorem inv_update_existing {s : PKIState} (hInv : Inv s) {x y : CertRecord}
    (hy : y ∈ s.certificates) (hser : y.serial_number = x.serial_number)
    (hok : RecordCrlOk s.crl_entries x) :
    Inv { s with certificates := storeCertificate s.certificates x } := by
  obtain ⟨hnd, hb, hcrl⟩ := hInv
  have hany : s.certificates.any (fun c => c.serial_number == x.serial_number)
      = true :=
    List.any_eq_true.2 ⟨y, hy, beq_iff_eq.2 hser⟩
  refine ⟨?_, ?_, ?_⟩
  · unfold SerialsNodup at hnd ⊢
    simp only []
    rw [storeCertificate_map_serial, if_pos hany]
    exact hnd
  · intro z hz
    rcases mem_storeCertificate hz with hzr | hzm
    · subst hzr
      have := hb y hy
      show z.serial_number < s.next_serial
      omega
    · have := hb z hzm
      show z.serial_number < s.next_serial
      omega
  · intro z hz
    rcases mem_storeCertificate hz with hzr | hzm
    · subst hzr; exact hok
    · exact hcrl z hzm

theorem inv_bootstrap {s : PKIState} (hInv : Inv s) (cfg : CaConfig) (now : Nat) :
    Inv (createCaCertificate s cfg now) := by
  unfold createCaCertificate
  exact inv_insert_fresh hInv rfl (by simp)

theorem inv_issue {s : PKIState} {d tn : String} {now : Nat} {s' : PKIState}
    {r : CertRecord} (hInv : Inv s)
    (h : issueDeviceCertificate s d tn now = .ok (s', r)) : Inv s' := by
  obtain ⟨t, _, hr, hs'⟩ := issueDeviceCertificate_ok h
  subst hs'
  exact inv_insert_fresh hInv (by rw [hr]; rfl)
    (by rw [hr]; simp [newDeviceRecord])

theorem inv_revoke {s : PKIState} (sn : Nat) (reason : String) (now : Nat)
    (hInv : Inv s) : Inv (revokeCertificate s sn reason now).1 := by
  cases hget : getCertificate s.certificates sn with
  | none =>
    rw [revokeCertificate_notfound hget]
    exact hInv
  | some r =>
    obtain ⟨hcerts, hentries, _, hnext, _⟩ := revokeCertificate_found reason now hget
    obtain ⟨hrmem, hrsn⟩ := getCertificate_mem hget
    obtain ⟨hnd, hb, hcrl⟩ := hInv
    set r' : CertRecord := { r with status := "revoked", revocation_date := some now, revocation_reason := some reason } with hr'
    set e : CrlEntry := { serial_number := sn, revocation_date := now, reason_code := reasonCodeOf reason } with he
    have hany : s.certificates.any (fun c => c.serial_number == r'.serial_number)
        = true :=
      List.any_eq_true.2 ⟨r, hrmem, beq_iff_eq.2 (by simp [hr', hrsn])⟩
    refine ⟨?_, ?_, ?_⟩
    · unfold SerialsNodup
      rw [hcerts, storeCertificate_map_serial, if_pos hany]
      exact hnd
    · intro z hz
      rw [hcerts] at hz
      rw [hnext]
      rcases mem_storeCertificate hz with hzr | hzm
      · have hzs : z.serial_number = r.serial_number := by rw [hzr]
        have := hb r hrmem
        omega
      · have := hb z hzm
        omega
    · intro z hz
      rw [hcerts] at hz
      rw [hentries]
      by_cases hzs : z.serial_number = sn
      · have hz' : z = r' := mem_storeCertificate_serial hz (by simp [hr', hrsn, hzs])
        subst hz'
        intro _
        refine ⟨by simp [hr'], by simp [hr'], ?_⟩
        have : r'.serial_number = e.serial_number := by simp [hr', he, hrsn]
        rw [this, lookupCrlEntry_addCrlEntry_self]
        simp [he, hr']
      · rcases mem_storeCertificate hz with hzr | hzm
        · exact absurd (by simp [hzr, hr', hrsn]) hzs
        · exact recordCrlOk_addCrlEntry_ne (hcrl z hzm) (by simp [he, hzs])

theorem inv_renew {s : PKIState} (d : String) (now : Nat) (b : Bool)
    (hInv : Inv s) : Inv (renewDeviceCertificate s d now b).1 := by
  unfold renewDeviceCertificate
  split
  · exact hInv
  next current rest h1 =>
    split
    next e h2 => exact hInv
    next s1 rnew h2 =>
      have hInv1 : Inv s1 := inv_issue hInv h2
      split
      · exact hInv1
      next newest rest2 h3 =>
        dsimp only
        obtain ⟨hnmem, _⟩ := head_getCertificatesByDevice_mem h3
        have hok : RecordCrlOk s1.crl_entries
            (withRenewalCount newest (current.renewal_count + 1)) := by
          intro hrev
          have := hInv1.2.2 newest hnmem (by simpa [withRenewalCount] using hrev)
          simpa [withRenewalCount] using this
        have hInv2 : Inv { s1 with certificates := storeCertificate s1.certificates (withRenewalCount newest (current.renewal_count + 1)) } :=
          inv_update_existing hInv1 hnmem (by simp [withRenewalCount]) hok
        split
        · exact inv_revoke current.serial_number "superseded" now hInv2
        · exact hInv2

theorem inv_init : Inv initState := by decide

theorem inv_step {s s' : PKIState} (hInv : Inv s) (hstep : Step s s') : Inv s' := by
  cases hstep with
  | bootstrap cfg now s => exact inv_bootstrap hInv cfg now
  | issue d tn now s s' r h => exact inv_issue hInv h
  | revoke sn reason now s => exact inv_revoke sn reason now hInv
  | renew d now b s => exact inv_renew d now b hInv

theorem reachable_inv {s : PKIState} (h : Reachable s) : Inv s := by
  induction h with
  | init => exact inv_init
  | step _ hstep ih => exact inv_step ih hstep

/-! ### Frame lemmas for the certificate table -/

theorem mem_storeCertificate_of_ne {db : List CertRecord} {r x : CertRecord}
    (hr : r ∈ db) (hne : r.serial_number ≠ x.serial_number) :
    r ∈ storeCertificate db x := by
  unfold storeCertificate
  split
  · exact List.mem_map.2 ⟨r, hr, by rw [if_neg (by simpa using hne)]⟩
  · exact List.mem_append_left _ hr

theorem mem_storeCertificate_self (db : List CertRecord) (r : CertRecord) :
    r ∈ storeCertificate db r :=
  (getCertificate_mem (getCertificate_storeCertificate_self db r)).1

theorem storeCertificate_append_of_fresh {db : List CertRecord} {x : CertRecord}
    (h : ∀ c ∈ db, c.serial_number ≠ x.serial_number) :
    storeCertificate db x = db ++ [x] := by
  unfold storeCertificate
  rw [if_neg]
  simp only [List.any_eq_true, not_exists, not_and]
  intro c hc
  simpa using h c hc

theorem getCertificatesByDevice_head_of_strict {db : List CertRecord}
    {d : String} {x : CertRecord} (hx : x ∈ db) (hdev : x.device_id = some d)
    (hstrict : ∀ c ∈ db, c.device_id = some d → c ≠ x →
      c.not_after < x.not_after) :
    ∃ rest, getCertificatesByDevice db d = x :: rest := by
  have hxs : x ∈ getCertificatesByDevice db d := by
    unfold getCertificatesByDevice
    rw [List.mem_insertionSort]
    exact List.mem_filter.2 ⟨hx, by simp [hdev]⟩
  have hsorted : List.Sorted byNotAfterDesc (getCertificatesByDevice db d) :=
    List.sorted_insertionSort byNotAfterDesc _
  cases hout : getCertificatesByDevice db d with
  | nil => rw [hout] at hxs; exact absurd hxs (by simp)
  | cons hd0 tl =>
    refine ⟨tl, ?_⟩
    rw [hout] at hxs hsorted
    rcases List.mem_cons.1 hxs with hx0 | hxtl
    · rw [hx0]
    · have hmemf : hd0 ∈ db ∧ hd0.device_id = some d := by
        have : hd0 ∈ getCertificatesByDevice db d := by rw [hout]; simp
        unfold getCertificatesByDevice at this
        rw [List.mem_insertionSort] at this
        have h2 := List.mem_filter.1 this
        exact ⟨h2.1, by simpa using h2.2⟩
      by_cases hne : hd0 = x
      · rw [hne]
      · have hlt := hstrict hd0 hmemf.1 hmemf.2 hne
        have hge : byNotAfterDesc hd0 x :=
          List.rel_of_sorted_cons hsorted x hxtl
        unfold byNotAfterDesc at hge
        omega

/-- Frame relation between two certificate tables: every row of the
first still has a row with the same serial number, fingerprint, and
encoded certificate in the second. -/
def FrameTo (db db' : List CertRecord) : Prop :=
  ∀ r ∈ db, ∃ r' ∈ db',
    r'.serial_number = r.serial_number ∧
    r'.fingerprint_sha256 = r.fingerprint_sha256 ∧
    r'.certificate_pem = r.certificate_pem

theorem frameTo_refl (db : List CertRecord) : FrameTo db db :=
  fun r hr => ⟨r, hr, rfl, rfl, rfl⟩

theorem frameTo_trans {db1 db2 db3 : List CertRecord}
    (h12 : FrameTo db1 db2) (h23 : FrameTo db2 db3) : FrameTo db1 db3 := by
  intro r hr
  obtain ⟨r2, hr2, e1, e2, e3⟩ := h12 r hr
  obtain ⟨r3, hr3, f1, f2, f3⟩ := h23 r2 hr2
  exact ⟨r3, hr3, f1.trans e1, f2.trans e2, f3.trans e3⟩

theorem frameTo_store_fresh {db : List CertRecord} {x : CertRecord}
    (h : ∀ c ∈ db, c.serial_number ≠ x.serial_number) :
    FrameTo db (storeCertificate db x) :=
  fun r hr => ⟨r, mem_storeCertificate_of_ne hr (h r hr), rfl, rfl, rfl⟩

theorem frameTo_store_update {db : List CertRecord} {x y : CertRecord}
    (hnd : (db.map CertRecord.serial_number).Nodup) (hy : y ∈ db)
    (hser : x.serial_number = y.serial_number)
    (hfp : x.fingerprint_sha256 = y.fingerprint_sha256)
    (hpem : x.certificate_pem = y.certificate_pem) :
    FrameTo db (storeCertificate db x) := by
  intro r hr
  by_cases hrs : r.serial_number = x.serial_number
  · have hry : r = y :=
      List.inj_on_of_nodup_map hnd hr hy (hrs.trans hser)
    exact ⟨x, mem_storeCertificate_self db x, hrs.symm,
      by rw [hfp, hry], by rw [hpem, hry]⟩
  · exact ⟨r, mem_storeCertificate_of_ne hr hrs, rfl, rfl, rfl⟩

/-- The revoke operation re-saves the loaded record with only
status/revocation fields changed, so every pre-existing row keeps its
serial number, fingerprint, and encoded certificate. -/
theorem frame_revoke {s : PKIState} (sn : Nat) (reason : String) (now : Nat)
    (hnd : SerialsNodup s) :
    FrameTo s.certificates (revokeCertificate s sn reason now).1.certificates := by
  cases hget : getCertificate s.certificates sn with
  | none =>
    rw [revokeCertificate_notfound hget]
    exact frameTo_refl _
  | some r =>
    obtain ⟨hcerts, _, _, _, _⟩ := revokeCertificate_found reason now hget
    rw [hcerts]
    obtain ⟨hrmem, hrsn⟩ := getCertificate_mem hget
    exact frameTo_store_update hnd hrmem rfl rfl rfl

/-- The renewal operation appends a fresh record, re-saves it with only
the renewal counter changed, and optionally revokes the old record
(committing those writes even though the CRL step then raises), so every
pre-existing row keeps its serial number, fingerprint, and encoded
certificate. -/
theorem frame_renew {s : PKIState} (d : String) (now : Nat) (b : Bool)
    (hInv : Inv s) :
    FrameTo s.certificates (renewDeviceCertificate s d now b).1.certificates := by
  unfold renewDeviceCertificate
  split
  · exact frameTo_refl _
  next current rest h1 =>
    split
    next e h2 => exact frameTo_refl _
    next s1 rnew h2 =>
      have hInv1 : Inv s1 := inv_issue hInv h2
      obtain ⟨t, ht, hr, hs1⟩ := issueDeviceCertificate_ok h2
      have hfr1 : FrameTo s.certificates s1.certificates := by
        rw [hs1]
        refine frameTo_store_fresh (fun c hc => ?_)
        have := hInv.2.1 c hc
        rw [hr]
        show c.serial_number ≠ s.next_serial
        omega
      split
      · exact hfr1
      next newest rest2 h3 =>
        dsimp only
        obtain ⟨hnmem, _⟩ := head_getCertificatesByDevice_mem h3
        have hfr2 : FrameTo s1.certificates (storeCertificate s1.certificates (withRenewalCount newest (current.renewal_count + 1))) :=
          frameTo_store_update hInv1.1 hnmem rfl rfl rfl
        have hInv2 : Inv { s1 with certificates := storeCertificate s1.certificates (withRenewalCount newest (current.renewal_count + 1)) } :=
          inv_update_existing hInv1 hnmem (by simp [withRenewalCount]) (by
            intro hrev
            have := hInv1.2.2 newest hnmem (by simpa [withRenewalCount] using hrev)
            simpa [withRenewalCount] using this)
        split
        · exact frameTo_trans hfr1 (frameTo_trans hfr2
            (frame_revoke current.serial_number "superseded" now hInv2.1))
        · exact frameTo_trans hfr1 hfr2

/-! ### Demonstration states used as concrete witnesses -/

/-- A CA configuration for concrete runs. -/
def demoCaConfig : CaConfig :=
  { country := "TH", state := "Bangkok", locality := "Bangkok",
    organization := "GridTokenX", organizational_unit := "PKI",
    common_name := "GridTokenX Root CA", validity_days := 3650 }

/-- Result of issuing one device certificate on the fresh deployment. -/
def demoPair1 : PKIState × CertRecord :=
  match issueDeviceCertificate initState "M-001" "smart_meter" 1000 with
  | .ok p => p
  | .error _ => (initState, default)

/-- The state after issuing a certificate for device `M-001`. -/
def demoState1 : PKIState := demoPair1.1

/-- The record issued for device `M-001`. -/
def demoRec1 : CertRecord := demoPair1.2

/-- The state after additionally revoking serial 0 for key compromise:
the revoked record and its CRL entry are committed even though the call
then raises out of `generate_crl`. -/
def demoRevokedState : PKIState :=
  (revokeCertificate demoState1 0 "key_compromise" 2000).1

theorem demoState1_reachable : Reachable demoState1 :=
  Reachable.step Reachable.init
    (Step.issue "M-001" "smart_meter" 1000 initState demoState1 demoRec1 rfl)

theorem demoRevokedState_reachable : Reachable demoRevokedState :=
  Reachable.step demoState1_reachable
    (Step.revoke 0 "key_compromise" 2000 demoState1)

/-! ### Claim C1 -/

/-- Claim C1: in every reachable state of the certificate store, no two
records share a serial number, and every operation of the engine (CA
bootstrap, device issuance, revocation, renewal) preserves this
uniqueness. -/
theorem c1_serial_numbers_unique :
    (∀ s, Reachable s → (s.certificates.map CertRecord.serial_number).Nodup) ∧
    (∀ s s', Inv s → Step s s' →
      (s'.certificates.map CertRecord.serial_number).Nodup) := by
  constructor
  · intro s hs
    exact (reachable_inv hs).1
  · intro s s' hInv hstep
    exact (inv_step hInv hstep).1

/-- Witness for C1 at concrete inputs: the state reached by issuing one
certificate has pairwise-distinct serials, and a concrete bootstrap step
from the fresh deployment preserves distinctness. -/
theorem c1_serial_numbers_unique_witness :
    (demoState1.certificates.map CertRecord.serial_number).Nodup ∧
    ((createCaCertificate initState demoCaConfig 0).certificates.map
      CertRecord.serial_number).Nodup :=
  ⟨c1_serial_numbers_unique.1 demoState1 demoState1_reachable,
   c1_serial_numbers_unique.2 initState _ (by decide)
     (Step.bootstrap demoCaConfig 0 initState)⟩

/-! ### Claim C2 -/

/-- Claim C2: contrary to the claim, `revoke(serial, reason)` fails on
every input, not only when the serial is absent.  When the record
exists, the call persists the revoked record and the `crl_entries` row
and only then raises out of `generate_crl`, so the store is changed on
failure and the CRL artifact is never regenerated.  The conjuncts:
every revocation call propagates an exception; on the demonstration
state serial 0 is present, yet the call still fails, leaves a changed
store, has committed the revoked record and the mapped CRL entry, and
has written no CRL artifact. -/
theorem c2_revoke_raises_after_writes :
    (∀ (s : PKIState) (sn : Nat) (reason : String) (now : Nat),
      (revokeCertificate s sn reason now).2.isSome = true) ∧
    getCertificate demoState1.certificates 0 ≠ none ∧
    (revokeCertificate demoState1 0 "key_compromise" 2000).1 ≠ demoState1 ∧
    (getCertificate demoRevokedState.certificates 0).map
      (fun r => (r.status, r.revocation_date, r.revocation_reason)) =
      some ("revoked", some 2000, some "key_compromise") ∧
    lookupCrlEntry demoRevokedState.crl_entries 0 =
      some { serial_number := 0, revocation_date := 2000,
             reason_code := reasonCodeOf "key_compromise" } ∧
    demoRevokedState.crl_artifact = none :=
  ⟨revokeCertificate_never_succeeds, by decide, by decide, by decide,
   by decide, by decide⟩

/-! ### Claim C3 -/

/-- Claim C3: contrary to the claim, `generate_crl` never produces a
CRL — it raises on every input.  With no revoked rows the splatted
`add_revoked_certificate(*[])` call passes no argument to a one-argument
method (`TypeError`); with a revoked row `x509.ReasonFlags` is called
with the stored integer reason code, which is not a member of the
string-valued enum (`ValueError`).  So the claimed correspondence
between the CRL contents and the revoked records never materialises.
The conjuncts: every call errors; the fresh deployment (no revoked
rows) hits the `TypeError`; the state with serial 0 revoked hits the
`ValueError`. -/
theorem c3_generate_crl_never_produces_crl :
    (∀ (certs : List CertRecord) (es : List CrlEntry),
      ∃ e, generateCrl certs es = .error e) ∧
    generateCrl initState.certificates initState.crl_entries =
      .error "TypeError: add_revoked_certificate missing 1 required positional argument" ∧
    generateCrl demoRevokedState.certificates demoRevokedState.crl_entries =
      .error "ValueError: 1 is not a valid ReasonFlags" :=
  ⟨generateCrl_always_errors, rfl, rfl⟩

/-! ### Lemmas about the renewal-processing pass -/

theorem mem_loadPendingJobs {db : List RenewalJob} {jb : RenewalJob} :
    jb ∈ loadPendingJobs db ↔ jb ∈ db ∧ jb.status = "pending" := by
  unfold loadPendingJobs
  rw [List.mem_filter]
  simp

theorem mem_sortJobs {jobs : List RenewalJob} {jb : RenewalJob} :
    jb ∈ sortJobs jobs ↔ jb ∈ jobs := by
  unfold sortJobs
  exact List.mem_insertionSort jobLe

theorem findJobByKey_mem {db : List RenewalJob} {k : String × Nat}
    {r : RenewalJob} (h : findJobByKey db k = some r) :
    r ∈ db ∧ jobKey r = k := by
  unfold findJobByKey at h
  refine ⟨List.mem_of_find?_eq_some h, ?_⟩
  have hp := List.find?_some h
  simp only [Bool.and_eq_true, beq_iff_eq] at hp
  unfold jobKey
  rw [hp.1, hp.2]

theorem findJobByKey_eq_of_nodup {db : List RenewalJob}
    (hnd : JobKeysNodup db) {j : RenewalJob} (hmem : j ∈ db) :
    findJobByKey db (jobKey j) = some j := by
  have hsome : (findJobByKey db (jobKey j)).isSome = true := by
    unfold findJobByKey
    exact List.find?_isSome.2 ⟨j, hmem, by simp [jobKey]⟩
  obtain ⟨y, hy⟩ := Option.isSome_iff_exists.1 hsome
  obtain ⟨hymem, hykey⟩ := findJobByKey_mem hy
  have : y = j := List.inj_on_of_nodup_map hnd hymem hmem hykey
  rw [hy, this]

theorem updateJob_map_key (db : List RenewalJob) (j : RenewalJob) :
    (updateJob db j).map jobKey = db.map jobKey := by
  unfold updateJob
  rw [List.map_map]
  refine List.map_congr_left (fun r _ => ?_)
  by_cases hc : (r.device_id == j.device_id && r.serial_number == j.serial_number) = true
  · simp only [Function.comp_apply, if_pos hc]
    rfl
  · simp only [Function.comp_apply, if_neg hc]

theorem findJobByKey_updateJob_ne {db : List RenewalJob} {j : RenewalJob}
    {k : String × Nat} (hne : jobKey j ≠ k) :
    findJobByKey (updateJob db j) k = findJobByKey db k := by
  unfold updateJob findJobByKey
  rw [List.find?_map]
  have hf : ((fun r : RenewalJob => r.device_id == k.1 && r.serial_number == k.2) ∘
      (fun r => if (r.device_id == j.device_id && r.serial_number == j.serial_number) = true
        then { r with renewal_attempts := j.renewal_attempts,
                      last_attempt := j.last_attempt, status := j.status }
        else r)) =
      (fun r : RenewalJob => r.device_id == k.1 && r.serial_number == k.2) := by
    funext r
    by_cases hc : (r.device_id == j.device_id && r.serial_number == j.serial_number) = true
    · simp only [Function.comp_apply, if_pos hc]
    · simp only [Function.comp_apply, if_neg hc]
  rw [hf]
  cases hfind : db.find? (fun r => r.device_id == k.1 && r.serial_number == k.2) with
  | none => simp
  | some r0 =>
    have hp := List.find?_some hfind
    simp only [Bool.and_eq_true, beq_iff_eq] at hp
    have hcr : ¬ (r0.device_id == j.device_id && r0.serial_number == j.serial_number) = true := by
      simp only [Bool.and_eq_true, beq_iff_eq]
      rintro ⟨hd, hs⟩
      exact hne (by unfold jobKey; rw [← hd, ← hs, hp.1, hp.2])
    simp only [Option.map_some', if_neg hcr]

theorem findJobByKey_updateJob_self {db : List RenewalJob} {j : RenewalJob}
    {k : String × Nat} {r : RenewalJob} (hk : jobKey j = k)
    (hfind : findJobByKey db k = some r) :
    findJobByKey (updateJob db j) k =
      some { r with renewal_attempts := j.renewal_attempts,
                    last_attempt := j.last_attempt, status := j.status } := by
  unfold updateJob findJobByKey
  unfold findJobByKey at hfind
  rw [List.find?_map]
  have hf : ((fun r : RenewalJob => r.device_id == k.1 && r.serial_number == k.2) ∘
      (fun r => if (r.device_id == j.device_id && r.serial_number == j.serial_number) = true
        then { r with renewal_attempts := j.renewal_attempts,
                      last_attempt := j.last_attempt, status := j.status }
        else r)) =
      (fun r : RenewalJob => r.device_id == k.1 && r.serial_number == k.2) := by
    funext r
    by_cases hc : (r.device_id == j.device_id && r.serial_number == j.serial_number) = true
    · simp only [Function.comp_apply, if_pos hc]
    · simp only [Function.comp_apply, if_neg hc]
  rw [hf, hfind]
  have hp := List.find?_some hfind
  simp only [Bool.and_eq_true, beq_iff_eq] at hp
  have hjk1 : j.device_id = k.1 := by rw [← hk]; rfl
  have hjk2 : j.serial_number = k.2 := by rw [← hk]; rfl
  have hcr : (r.device_id == j.device_id && r.serial_number == j.serial_number) = true := by
    simp only [Bool.and_eq_true, beq_iff_eq]
    exact ⟨by rw [hp.1, hjk1], by rw [hp.2, hjk2]⟩
  simp only [Option.map_some', if_pos hcr]

theorem renewalStep_jobs_map_key (now : Nat) (ro : Bool) (st : PassState)
    (jb : RenewalJob) :
    (renewalStep now ro st jb).jobs_db.map jobKey = st.jobs_db.map jobKey := by
  unfold renewalStep
  split
  · rfl
  · split
    · exact updateJob_map_key _ _
    · split
      · exact updateJob_map_key _ _
      · exact updateJob_map_key _ _

theorem renewalStep_find_ne {now : Nat} {ro : Bool} {st : PassState}
    {jb : RenewalJob} {k : String × Nat} (hne : jobKey jb ≠ k) :
    findJobByKey (renewalStep now ro st jb).jobs_db k =
      findJobByKey st.jobs_db k := by
  unfold renewalStep
  split
  · rfl
  · split
    · exact findJobByKey_updateJob_ne hne
    · split
      · exact findJobByKey_updateJob_ne hne
      · exact findJobByKey_updateJob_ne hne

theorem renewalStep_events (now : Nat) (ro : Bool) (st : PassState)
    (jb : RenewalJob) :
    ∃ es, (renewalStep now ro st jb).events = st.events ++ es ∧
      ∀ e ∈ es, RenewalEvent.key e = jobKey jb := by
  unfold renewalStep
  split
  · exact ⟨[], by simp, by simp⟩
  · split
    · refine ⟨[.failedAlert jb.device_id jb.serial_number], rfl, ?_⟩
      intro e he
      rw [List.mem_singleton.1 he]
      rfl
    · split
      · refine ⟨[.attempted jb.device_id jb.serial_number,
          .completedAlert jb.device_id jb.serial_number], rfl, ?_⟩
        intro e he
        rcases List.mem_cons.1 he with h | h
        · rw [h]; rfl
        · rw [List.mem_singleton.1 h]; rfl
      · refine ⟨[.attempted jb.device_id jb.serial_number], rfl, ?_⟩
        intro e he
        rw [List.mem_singleton.1 he]
        rfl

theorem foldl_renewalStep_map_key (now : Nat) (ro : Bool) :
    ∀ (jobs : List RenewalJob) (st : PassState),
      ((jobs.foldl (renewalStep now ro) st).jobs_db.map jobKey) =
        st.jobs_db.map jobKey
  | [], _ => rfl
  | jb :: tl, st => by
    rw [List.foldl_cons, foldl_renewalStep_map_key now ro tl _,
      renewalStep_jobs_map_key]

theorem foldl_renewalStep_find_frame (now : Nat) (ro : Bool) {k : String × Nat} :
    ∀ (jobs : List RenewalJob) (st : PassState),
      (∀ jb ∈ jobs, jobKey jb ≠ k) →
      findJobByKey ((jobs.foldl (renewalStep now ro) st).jobs_db) k =
        findJobByKey st.jobs_db k
  | [], _, _ => rfl
  | jb :: tl, st, h => by
    rw [List.foldl_cons,
      foldl_renewalStep_find_frame now ro tl _ (fun x hx => h x (List.mem_cons_of_mem jb hx)),
      renewalStep_find_ne (h jb (List.mem_cons_self jb tl))]

theorem foldl_renewalStep_events (now : Nat) (ro : Bool) :
    ∀ (jobs : List RenewalJob) (st : PassState),
      ∃ es, (jobs.foldl (renewalStep now ro) st).events = st.events ++ es ∧
        ∀ e ∈ es, ∃ jb ∈ jobs, RenewalEvent.key e = jobKey jb
  | [], st => ⟨[], by simp, by simp⟩
  | jb :: tl, st => by
    obtain ⟨es1, he1, hk1⟩ := renewalStep_events now ro st jb
    obtain ⟨es2, he2, hk2⟩ := foldl_renewalStep_events now ro tl (renewalStep now ro st jb)
    refine ⟨es1 ++ es2, ?_, ?_⟩
    · rw [List.foldl_cons, he2, he1, List.append_assoc]
    · intro e he
      rcases List.mem_append.1 he with h | h
      · exact ⟨jb, List.mem_cons_self jb tl, hk1 e h⟩
      · obtain ⟨jb2, hjb2, hkey⟩ := hk2 e h
        exact ⟨jb2, List.mem_cons_of_mem jb hjb2, hkey⟩

theorem processRenewalJobs_map_key (db : List RenewalJob) (pki : PKIState)
    (now : Nat) (ro : Bool) :
    (processRenewalJobs db pki now ro).jobs_db.map jobKey = db.map jobKey :=
  foldl_renewalStep_map_key now ro _ _

theorem processRenewalJobs_frame_failed {db : List RenewalJob} {pki : PKIState}
    {now : Nat} {ro : Bool} {k : String × Nat} {r : RenewalJob}
    (hnd : JobKeysNodup db) (hfind : findJobByKey db k = some r)
    (hfail : r.status = "failed") :
    findJobByKey (processRenewalJobs db pki now ro).jobs_db k = some r ∧
    ∀ e ∈ (processRenewalJobs db pki now ro).events, RenewalEvent.key e ≠ k := by
  obtain ⟨hrdb, hrkey⟩ := findJobByKey_mem hfind
  have hjobs : ∀ jb ∈ sortJobs (loadPendingJobs db), jobKey jb ≠ k := by
    intro jb hjb hkey
    obtain ⟨hjbdb, hjbpend⟩ := mem_loadPendingJobs.1 (mem_sortJobs.1 hjb)
    have : jb = r :=
      List.inj_on_of_nodup_map hnd hjbdb hrdb (hkey.trans hrkey.symm)
    rw [this, hfail] at hjbpend
    exact absurd hjbpend (by decide)
  constructor
  · unfold processRenewalJobs
    rw [foldl_renewalStep_find_frame now ro _ _ hjobs]
    exact hfind
  · unfold processRenewalJobs
    obtain ⟨es, hes, hkeys⟩ := foldl_renewalStep_events now ro
      (sortJobs (loadPendingJobs db))
      { jobs_db := db, pki := pki, events := [], handled := [] }
    rw [hes]
    intro e he
    have he' : e ∈ es := by simpa using he
    obtain ⟨jb, hjb, hkey⟩ := hkeys e he'
    rw [hkey]
    exact hjobs jb hjb

theorem runPasses_frame_failed {k : String × Nat} {r : RenewalJob}
    (now : Nat) (ro : Bool) (hfail : r.status = "failed") :
    ∀ (n : Nat) (db : List RenewalJob) (pki : PKIState),
      JobKeysNodup db → findJobByKey db k = some r →
      findJobByKey (runPasses n db pki now ro).jobs_db k = some r ∧
      ∀ e ∈ (runPasses n db pki now ro).events, RenewalEvent.key e ≠ k
  | 0, db, pki, _, hfind => ⟨hfind, by simp [runPasses]⟩
  | n + 1, db, pki, hnd, hfind => by
    obtain ⟨hfind1, hev1⟩ := processRenewalJobs_frame_failed hnd hfind hfail
    have hnd1 : JobKeysNodup (processRenewalJobs db pki now ro).jobs_db := by
      unfold JobKeysNodup
      rw [processRenewalJobs_map_key]
      exact hnd
    obtain ⟨hfind2, hev2⟩ :=
      runPasses_frame_failed now ro hfail n
        (processRenewalJobs db pki now ro).jobs_db
        (processRenewalJobs db pki now ro).pki hnd1 hfind1
    refine ⟨hfind2, ?_⟩
    intro e he
    simp only [runPasses, List.mem_append] at he
    rcases he with h | h
    · exact hev1 e h
    · exact hev2 e h

theorem renewalStep_exhausted (now : Nat) (ro : Bool) (st : PassState)
    {j : RenewalJob} (hpend : j.status = "pending")
    (hexh : j.renewal_attempts ≥ j.max_attempts) :
    renewalStep now ro st j =
      { st with jobs_db := updateJob st.jobs_db { j with status := "failed" }
                events := st.events ++ [.failedAlert j.device_id j.serial_number]
                handled := st.handled ++ [j] } := by
  unfold renewalStep
  rw [if_neg (by simp [hpend]), if_pos hexh]

theorem processRenewalJobs_exhausted {db : List RenewalJob} {pki : PKIState}
    {now : Nat} {ro : Bool} {j : RenewalJob}
    (hnd : JobKeysNodup db) (hmem : j ∈ db) (hpend : j.status = "pending")
    (hexh : j.renewal_attempts ≥ j.max_attempts) :
    findJobByKey (processRenewalJobs db pki now ro).jobs_db (jobKey j) =
      some { j with status := "failed" } ∧
    ∃ pre post, (processRenewalJobs db pki now ro).events =
      pre ++ [.failedAlert j.device_id j.serial_number] ++ post ∧
      (∀ e ∈ pre, RenewalEvent.key e ≠ jobKey j) ∧
      (∀ e ∈ post, RenewalEvent.key e ≠ jobKey j) := by
  have hdbnd : db.Nodup := List.Nodup.of_map jobKey hnd
  have hpendnd : (loadPendingJobs db).Nodup := List.Nodup.filter _ hdbnd
  have hsortnd : (sortJobs (loadPendingJobs db)).Nodup :=
    ((List.perm_insertionSort jobLe (loadPendingJobs db)).nodup_iff).2 hpendnd
  have hjsort : j ∈ sortJobs (loadPendingJobs db) :=
    mem_sortJobs.2 (mem_loadPendingJobs.2 ⟨hmem, hpend⟩)
  obtain ⟨pre, post, hdecomp⟩ := List.append_of_mem hjsort
  have hsortnd' := hdecomp ▸ hsortnd
  have hjnotpre : j ∉ pre := by
    have hdisj := (List.nodup_append.1 hsortnd').2.2
    intro hc
    exact hdisj hc (List.mem_cons_self j post)
  have hjnotpost : j ∉ post := by
    have := (List.nodup_append.1 hsortnd').2.1
    exact (List.nodup_cons.1 this).1
  have hkeys : ∀ x, x ∈ pre ∨ x ∈ post → jobKey x ≠ jobKey j := by
    rintro x hx hkey
    have hxsort : x ∈ sortJobs (loadPendingJobs db) := by
      rw [hdecomp]
      rcases hx with h | h
      · exact List.mem_append_left _ h
      · exact List.mem_append_right _ (List.mem_cons_of_mem j h)
    have hxdb : x ∈ db := (mem_loadPendingJobs.1 (mem_sortJobs.1 hxsort)).1
    have : x = j := List.inj_on_of_nodup_map hnd hxdb hmem hkey
    rcases hx with h | h
    · exact hjnotpre (this ▸ h)
    · exact hjnotpost (this ▸ h)
  have hjuly : processRenewalJobs db pki now ro =
      (j :: post).foldl (renewalStep now ro)
        (pre.foldl (renewalStep now ro)
          { jobs_db := db, pki := pki, events := [], handled := [] }) := by
    unfold processRenewalJobs
    rw [hdecomp, ← List.foldl_append]
  obtain ⟨es1, hes1, hk1⟩ := foldl_renewalStep_events now ro pre
    { jobs_db := db, pki := pki, events := [], handled := [] }
  have hfind1 : findJobByKey
      (pre.foldl (renewalStep now ro)
        { jobs_db := db, pki := pki, events := [], handled := [] }).jobs_db
      (jobKey j) = some j := by
    rw [foldl_renewalStep_find_frame now ro pre _
      (fun x hx => hkeys x (Or.inl hx))]
    exact findJobByKey_eq_of_nodup hnd hmem
  set st1 := pre.foldl (renewalStep now ro)
    { jobs_db := db, pki := pki, events := [], handled := [] } with hst1
  have hstep := renewalStep_exhausted now ro st1 hpend hexh
  obtain ⟨es2, hes2, hk2⟩ := foldl_renewalStep_events now ro post
    (renewalStep now ro st1 j)
  constructor
  · rw [hjuly, List.foldl_cons,
      foldl_renewalStep_find_frame now ro post _ (fun x hx => hkeys x (Or.inr hx)),
      hstep]
    have := @findJobByKey_updateJob_self st1.jobs_db
      { j with status := "failed" } (jobKey j) j rfl hfind1
    exact this
  · refine ⟨es1, es2, ?_, ?_, ?_⟩
    · rw [hjuly, List.foldl_cons, hes2, hstep]
      show st1.events ++ [RenewalEvent.failedAlert j.device_id j.serial_number]
          ++ es2 = _
      rw [hes1]
      simp
    · intro e he
      obtain ⟨jb, hjb, hkey⟩ := hk1 e he
      rw [hkey]
      exact hkeys jb (Or.inl hjb)
    · intro e he
      obtain ⟨jb, hjb, hkey⟩ := hk2 e he
      rw [hkey]
      exact hkeys jb (Or.inr hjb)

theorem isFailedAlertFor_key {k : String × Nat} {e : RenewalEvent}
    (h : isFailedAlertFor k e = true) : RenewalEvent.key e = k := by
  cases e with
  | attempted d sn => exact absurd h (by simp [isFailedAlertFor])
  | failedAlert d sn => simpa [isFailedAlertFor, RenewalEvent.key] using h
  | completedAlert d sn => exact absurd h (by simp [isFailedAlertFor])

theorem isAttemptFor_key {k : String × Nat} {e : RenewalEvent}
    (h : isAttemptFor k e = true) : RenewalEvent.key e = k := by
  cases e with
  | attempted d sn => simpa [isAttemptFor, RenewalEvent.key] using h
  | failedAlert d sn => exact absurd h (by simp [isAttemptFor])
  | completedAlert d sn => exact absurd h (by simp [isAttemptFor])

theorem renewalStep_handled_of_pending {now : Nat} {ro : Bool} {st : PassState}
    {jb : RenewalJob} (h : jb.status = "pending") :
    (renewalStep now ro st jb).handled = st.handled ++ [jb] := by
  unfold renewalStep
  rw [if_neg (by simp [h])]
  split
  · rfl
  · split
    · rfl
    · rfl

theorem foldl_renewalStep_handled (now : Nat) (ro : Bool) :
    ∀ (jobs : List RenewalJob) (st : PassState),
      (∀ jb ∈ jobs, jb.status = "pending") →
      (jobs.foldl (renewalStep now ro) st).handled = st.handled ++ jobs
  | [], st, _ => by simp
  | jb :: tl, st, h => by
    rw [List.foldl_cons,
      foldl_renewalStep_handled now ro tl _ (fun x hx => h x (List.mem_cons_of_mem jb hx)),
      renewalStep_handled_of_pending (h jb (List.mem_cons_self jb tl))]
    simp

theorem processRenewalJobs_handled (db : List RenewalJob) (pki : PKIState)
    (now : Nat) (ro : Bool) :
    (processRenewalJobs db pki now ro).handled =
      sortJobs (loadPendingJobs db) := by
  unfold processRenewalJobs
  rw [foldl_renewalStep_handled now ro _ _
    (fun jb hjb => (mem_loadPendingJobs.1 (mem_sortJobs.1 hjb)).2)]
  simp

/-! ### Claim C4 -/

/-- The renewal job the manager would hold for the demonstration
device. -/
def c4job : RenewalJob :=
  { device_id := "M-001", serial_number := 0,
    expiry_date := demoRec1.not_after, priority := "critical" }

/-- Claim C4: contrary to the claim, with `revoke_old` configured (the
default) renewal never completes: the new record (fresh serial, fresh
key material, renewal count incremented) and the revoked old record are
committed, but the revoke step then raises out of `generate_crl`, so
`renew_device_certificate` propagates the exception and
`process_single_renewal` returns `False` — the job is retried as a
failed attempt despite the committed writes.  The conjuncts: with
`revoke_old` every renewal call propagates an exception; the concrete
renewal on the demonstration state does; the manager records that run
as a failure; yet the committed new record carries the incremented
renewal count and fresh key material on a fresh serial, and the old
record is left revoked with reason `superseded`. -/
theorem c4_renewal_with_revoke_old_never_succeeds :
    (∀ (s : PKIState) (d : String) (now : Nat),
      (renewDeviceCertificate s d now true).2.isSome = true) ∧
    (renewDeviceCertificate demoState1 "M-001" 2000 true).2.isSome = true ∧
    (processSingleRenewal demoState1 c4job 2000 true).2 = false ∧
    (getCertificate
        (renewDeviceCertificate demoState1 "M-001" 2000 true).1.certificates
        1).map (fun r => (r.renewal_count, r.certificate_pem)) =
      some (demoRec1.renewal_count + 1, keyBlob 1) ∧
    keyBlob 1 ≠ demoRec1.certificate_pem ∧
    (1 : Nat) ≠ demoRec1.serial_number ∧
    (getCertificate
        (renewDeviceCertificate demoState1 "M-001" 2000 true).1.certificates
        0).map (fun r => (r.status, r.revocation_reason)) =
      some ("revoked", some "superseded") := by
  refine ⟨?_, by decide, by decide, by decide, by decide, by decide, by decide⟩
  intro s d now
  unfold renewDeviceCertificate
  split
  · rfl
  next current rest h1 =>
    split
    · rfl
    next s1 rnew h2 =>
      split
      · rfl
      next newest rest2 h3 =>
        dsimp only
        rw [if_pos rfl]
        exact revokeCertificate_never_succeeds _ _ _ _

/-! ### Claim C5 -/

/-- A stored record used to exhibit the behaviour of a re-save. -/
def c5rec1 : CertRecord :=
  { serial_number := 1, subject_dn := "CN=A", issuer_dn := "CN=CA",
    not_before := 0, not_after := 100, status := "active",
    fingerprint_sha256 := "aa", certificate_pem := "pemA" }

/-- A re-saved record with the same serial number but different
fingerprint and encoded certificate. -/
def c5rec2 : CertRecord :=
  { c5rec1 with fingerprint_sha256 := "bb", certificate_pem := "pemB" }

/-- Counterexample to C5 as stated: `store_certificate` is `INSERT OR
REPLACE` of the full row, so re-saving a record with the same serial
number (here serial 1) replaces the stored fingerprint (`"aa"` becomes
`"bb"`) and the stored encoded certificate (`"pemA"` becomes `"pemB"`);
the store itself does not keep those fields immutable on re-save. -/
theorem c5_resave_counterexample :
    (getCertificate (storeCertificate [c5rec1] c5rec2) 1).map
      CertRecord.fingerprint_sha256 = some "bb" ∧
    (getCertificate [c5rec1] 1).map CertRecord.fingerprint_sha256 = some "aa" ∧
    (getCertificate (storeCertificate [c5rec1] c5rec2) 1).map
      CertRecord.certificate_pem = some "pemB" ∧
    (getCertificate [c5rec1] 1).map CertRecord.certificate_pem = some "pemA" := by
  decide

/-- Claim C5 as amended: the upsert of the store replaces every field of the
row, so immutability of serial number, fingerprint, and key material is
not enforced by `store_certificate` itself; it does hold for the
re-saves the system actually performs — revocation and renewal re-save
a loaded record with only status/revocation/renewal fields modified, so
after either operation (even though both then raise out of
`generate_crl`, their table writes being already committed) every
pre-existing row still has a row with its serial number, fingerprint,
and encoded certificate. -/
theorem c5_resave_frame_via_operations :
    (∀ (s : PKIState) (sn : Nat) (reason : String) (now : Nat),
      SerialsNodup s →
      FrameTo s.certificates (revokeCertificate s sn reason now).1.certificates) ∧
    (∀ (s : PKIState) (d : String) (now : Nat) (b : Bool), Inv s →
      FrameTo s.certificates (renewDeviceCertificate s d now b).1.certificates) :=
  ⟨fun _ sn reason now hnd => frame_revoke sn reason now hnd,
   fun _ d now b hInv => frame_renew d now b hInv⟩

/-- Witness for the amended C5 at concrete inputs: revoking serial 0 on
the demonstration state keeps the serial of every row, fingerprint, and
encoded certificate present. -/
theorem c5_resave_frame_via_operations_witness :
    FrameTo demoState1.certificates demoRevokedState.certificates :=
  c5_resave_frame_via_operations.1 demoState1 0 "key_compromise" 2000 (by decide)

/-! ### Claim C6 -/

/-- A medium-priority job used in the concrete ordering example. -/
def c6jobMedium : RenewalJob :=
  { device_id := "MTR-A", serial_number := 11, expiry_date := 5000,
    priority := "medium" }

/-- A critical-priority job used in the concrete ordering example. -/
def c6jobCritical : RenewalJob :=
  { device_id := "MTR-B", serial_number := 12, expiry_date := 7000,
    priority := "critical" }

/-- A high-priority job used in the concrete ordering example. -/
def c6jobHigh : RenewalJob :=
  { device_id := "MTR-C", serial_number := 13, expiry_date := 6000,
    priority := "high" }

/-- A critical job with the earlier expiry date. -/
def c6jobCritEarly : RenewalJob :=
  { device_id := "MTR-D", serial_number := 14, expiry_date := 4000,
    priority := "critical" }

/-- A critical job with the later expiry date. -/
def c6jobCritLate : RenewalJob :=
  { device_id := "MTR-E", serial_number := 15, expiry_date := 9000,
    priority := "critical" }

/-- Claim C6: a processing pass handles the pending jobs sequentially in
exactly the sorted order (priority rank `critical < high < medium <
low`, then expiry date ascending); the sort is a permutation of the
pending jobs ordered by that key; jobs with priorities
`[medium, critical, high]` are processed as `[critical, high, medium]`,
and of two critical jobs the one with the earlier expiry date comes
first. -/
theorem c6_jobs_processed_in_priority_order :
    (∀ db pki now ro, (processRenewalJobs db pki now ro).handled =
      sortJobs (loadPendingJobs db)) ∧
    (∀ jobs : List RenewalJob,
      List.Sorted jobLe (sortJobs jobs) ∧ List.Perm (sortJobs jobs) jobs) ∧
    (sortJobs [c6jobMedium, c6jobCritical, c6jobHigh]).map RenewalJob.priority =
      ["critical", "high", "medium"] ∧
    sortJobs [c6jobCritLate, c6jobCritEarly] = [c6jobCritEarly, c6jobCritLate] := by
  refine ⟨processRenewalJobs_handled, ?_, by decide, by decide⟩
  intro jobs
  exact ⟨List.sorted_insertionSort jobLe jobs, List.perm_insertionSort jobLe jobs⟩

/-! ### Claim C7 -/

instance (db : List RenewalJob) : Decidable (JobKeysNodup db) := by
  unfold JobKeysNodup; infer_instance

/-- Claim C7: a pending job whose attempt counter has reached
`max_attempts` is marked failed by the next processing pass, which emits
exactly one `renewal_failed` alert for it and does not attempt it; on
every later pass the job row stays failed and no event concerns it
again. -/
theorem c7_exhausted_job_fails_exactly_once (db : List RenewalJob)
    (pki : PKIState) (now : Nat) (ro : Bool) (j : RenewalJob)
    (hnd : JobKeysNodup db) (hmem : j ∈ db) (hpend : j.status = "pending")
    (hexh : j.renewal_attempts ≥ j.max_attempts) :
    statusByKey (processRenewalJobs db pki now ro).jobs_db (jobKey j) =
      some "failed" ∧
    ((processRenewalJobs db pki now ro).events.filter
      (isFailedAlertFor (jobKey j))).length = 1 ∧
    ((processRenewalJobs db pki now ro).events.filter
      (isAttemptFor (jobKey j))).length = 0 ∧
    ∀ n : Nat,
      statusByKey (runPasses n (processRenewalJobs db pki now ro).jobs_db
        (processRenewalJobs db pki now ro).pki now ro).jobs_db (jobKey j) =
        some "failed" ∧
      ((runPasses n (processRenewalJobs db pki now ro).jobs_db
        (processRenewalJobs db pki now ro).pki now ro).events.filter
        (eventTouches (jobKey j))).length = 0 := by
  obtain ⟨hfind, pre, post, hevents, hpre, hpost⟩ :=
    processRenewalJobs_exhausted hnd hmem hpend hexh
  have hgen : ∀ (p : RenewalEvent → Bool),
      (∀ e, p e = true → RenewalEvent.key e = jobKey j) →
      ∀ (l : List RenewalEvent), (∀ e ∈ l, RenewalEvent.key e ≠ jobKey j) →
      l.filter p = [] := by
    intro p hp l hl
    rw [List.filter_eq_nil_iff]
    intro e he hc
    exact hl e he (hp e hc)
  refine ⟨?_, ?_, ?_, ?_⟩
  · unfold statusByKey
    rw [hfind]
    rfl
  · rw [hevents, List.filter_append, List.filter_append,
      hgen _ (fun e => isFailedAlertFor_key) pre hpre,
      hgen _ (fun e => isFailedAlertFor_key) post hpost]
    simp [isFailedAlertFor, jobKey]
  · rw [hevents, List.filter_append, List.filter_append,
      hgen _ (fun e => isAttemptFor_key) pre hpre,
      hgen _ (fun e => isAttemptFor_key) post hpost]
    simp [isAttemptFor]
  · intro n
    have hnd1 : JobKeysNodup (processRenewalJobs db pki now ro).jobs_db := by
      unfold JobKeysNodup
      rw [processRenewalJobs_map_key]
      exact hnd
    obtain ⟨hfindn, hevn⟩ := runPasses_frame_failed now ro
      (show ({ j with status := "failed" } : RenewalJob).status = "failed" from rfl)
      n _ _ hnd1 hfind
    constructor
    · unfold statusByKey
      rw [hfindn]
      rfl
    · rw [hgen _ (fun e hc => by simpa [eventTouches] using hc) _ hevn]
      rfl

/-- A job whose attempts already reached the maximum, used as the
concrete C7 witness. -/
def c7job : RenewalJob :=
  { device_id := "MTR-X", serial_number := 99, expiry_date := 1000,
    priority := "critical", renewal_attempts := 3, max_attempts := 3 }

/-- Witness for C7 at concrete inputs: one exhausted pending job is
failed by the pass with exactly one `renewal_failed` alert and never
touched on later passes. -/
theorem c7_exhausted_job_fails_exactly_once_witness :
    statusByKey (processRenewalJobs [c7job] initState 0 false).jobs_db
      (jobKey c7job) = some "failed" ∧
    ((processRenewalJobs [c7job] initState 0 false).events.filter
      (isFailedAlertFor (jobKey c7job))).length = 1 ∧
    ((processRenewalJobs [c7job] initState 0 false).events.filter
      (isAttemptFor (jobKey c7job))).length = 0 ∧
    ∀ n : Nat,
      statusByKey (runPasses n (processRenewalJobs [c7job] initState 0 false).jobs_db
        (processRenewalJobs [c7job] initState 0 false).pki 0 false).jobs_db
        (jobKey c7job) = some "failed" ∧
      ((runPasses n (processRenewalJobs [c7job] initState 0 false).jobs_db
        (processRenewalJobs [c7job] initState 0 false).pki 0 false).events.filter
        (eventTouches (jobKey c7job))).length = 0 :=
  c7_exhausted_job_fails_exactly_once [c7job] initState 0 false c7job
    (by decide) (by decide) (by decide) (by decide)

/-! ### Claim C8 -/

/-- Counterexample to C8 as stated: `schedule_renewal` is a plain
`INSERT` with no check for an existing pending job, so scheduling a
renewal for device `M-001` while a pending job for it already exists
appends a second pending row instead of updating the first — the
at-most-one-pending invariant is violated and scheduling is not
idempotent. -/
theorem c8_schedule_duplicates_counterexample :
    ((scheduleRenewal (scheduleRenewal [] "M-001" 7 1000 "medium")
      "M-001" 7 1000 "medium").filter
      (fun j => j.device_id == "M-001" && j.status == "pending")).length = 2 ∧
    ((scheduleRenewal [] "M-001" 7 1000 "medium").filter
      (fun j => j.device_id == "M-001" && j.status == "pending")).length = 1 := by
  decide

/-- Claim C8 as amended: `schedule_renewal` unconditionally appends a
fresh pending row for the device, whatever rows already exist; each
call increases the device's pending-job count by one, so a device may
accumulate several pending jobs and scheduling is not idempotent. -/
theorem c8_schedule_always_appends (db : List RenewalJob) (d : String)
    (sn : Nat) (e : Nat) (p : String) :
    scheduleRenewal db d sn e p =
      db ++ [{ device_id := d, serial_number := sn, expiry_date := e,
               priority := p }] ∧
    ((scheduleRenewal db d sn e p).filter
      (fun j => j.device_id == d && j.status == "pending")).length =
      (db.filter (fun j => j.device_id == d && j.status == "pending")).length
        + 1 := by
  refine ⟨rfl, ?_⟩
  unfold scheduleRenewal
  rw [List.filter_append]
  simp

/-! ### Lemmas about the health scan -/

theorem checkCertificateHealth_alerts (certs : List CertRecord) :
    ∀ (db : List CertificateAlert) (now : Nat),
      (checkCertificateHealth certs db now).1 = db ++ genAlerts certs now := by
  induction certs with
  | nil => intro db now; simp [checkCertificateHealth, genAlerts]
  | cons r rs ih =>
    intro db now
    cases ha : alertFor r now with
    | some a =>
      show (checkCertificateHealth (r :: rs) db now).1 = _
      unfold checkCertificateHealth
      rw [ha]
      simp only []
      rw [ih (db ++ [a]) now]
      unfold genAlerts
      simp [List.filterMap_cons, ha]
    | none =>
      show (checkCertificateHealth (r :: rs) db now).1 = _
      unfold checkCertificateHealth
      rw [ha]
      rw [ih db now]
      unfold genAlerts
      simp [List.filterMap_cons, ha]

theorem checkCertificateHealth_trace (certs : List CertRecord) :
    ∀ (db : List CertificateAlert) (now : Nat),
      (checkCertificateHealth certs db now).2 =
        (genAlerts certs now).flatMap
          (fun a => [HealthEvent.dispatch a, HealthEvent.persist a]) := by
  induction certs with
  | nil => intro db now; simp [checkCertificateHealth, genAlerts]
  | cons r rs ih =>
    intro db now
    cases ha : alertFor r now with
    | some a =>
      unfold checkCertificateHealth
      rw [ha]
      simp only []
      rw [ih (db ++ [a]) now]
      unfold genAlerts
      simp [List.filterMap_cons, ha]
    | none =>
      unfold checkCertificateHealth
      rw [ha]
      rw [ih db now]
      unfold genAlerts
      simp [List.filterMap_cons, ha]

/-! ### Claim C9 -/

/-- A record that is past its `not_after` while still marked active. -/
def c9cert : CertRecord :=
  { serial_number := 5, subject_dn := "CN=M-009", issuer_dn := caIssuerDn,
    not_before := 0, not_after := 100, status := "active",
    fingerprint_sha256 := "f9", certificate_pem := "p9",
    device_id := some "M-009" }

/-- The alert the scan builds for `c9cert` at time 200. -/
def c9alert : CertificateAlert :=
  { alert_type := "certificate_expired", device_id := "M-009",
    serial_number := 5, message := "Certificate expired on 100",
    severity := "critical", timestamp := 200 }

/-- Counterexample to C9 as stated: `check_certificate_health` calls
`send_alert` (the dispatch attempt) before `store_alert` (the database
insert), so on a store holding one expired active record the scan's
first event is a dispatch of an alert that has not been persisted: an
execution interrupted between the two loses the record. -/
theorem c9_dispatch_before_persist_counterexample :
    (checkCertificateHealth [c9cert] [] 200).2 =
      [HealthEvent.dispatch c9alert, HealthEvent.persist c9alert] ∧
    ¬ PersistedBeforeDispatch (checkCertificateHealth [c9cert] [] 200).2 := by
  constructor
  · decide
  · intro h
    obtain ⟨jl, hjl, _⟩ := h 0 c9alert (by decide)
    omega

/-- Claim C9 as amended: for every alert the scan raises, the
notification dispatch attempt comes first and the database insert
immediately follows it — the scan's event trace is exactly a
dispatch-then-persist pair per generated alert, so persistence never
precedes the dispatch attempt. -/
theorem c9_dispatch_then_persist_per_alert (certs : List CertRecord)
    (db : List CertificateAlert) (now : Nat) :
    (checkCertificateHealth certs db now).2 =
      (genAlerts certs now).flatMap
        (fun a => [HealthEvent.dispatch a, HealthEvent.persist a]) :=
  checkCertificateHealth_trace certs db now

/-! ### Claim C10 -/

/-- An active record inside the 30-day expiry window (5 days left at
time 0). -/
def c10cert : CertRecord :=
  { serial_number := 6, subject_dn := "CN=M-010", issuer_dn := caIssuerDn,
    not_before := 0, not_after := 5 * 86400, status := "active",
    fingerprint_sha256 := "f10", certificate_pem := "p10",
    device_id := some "M-010" }

/-- Counterexample to C10 as stated: the scan stores alerts with a plain
`INSERT` and never deduplicates, so scanning the same unchanged store
twice leaves two alert rows for the same record where the first scan
left one — the second run does add a duplicate alert for an
already-alerted, unchanged record. -/
theorem c10_duplicate_alerts_counterexample :
    ((checkCertificateHealth [c10cert] [] 0).1.filter
      (fun a => a.serial_number == 6)).length = 1 ∧
    ((checkCertificateHealth [c10cert]
      (checkCertificateHealth [c10cert] [] 0).1 0).1.filter
      (fun a => a.serial_number == 6)).length = 2 := by
  decide

/-- Claim C10 as amended: the scan never mutates the certificate table,
so a second scan of the unchanged store at the same instant makes
exactly the same classification decisions — its event trace (and hence
its generated alerts) is identical to the first run's; but each run
appends its full alert list to the alert store again, so the second run
does duplicate the alerts of an already-alerted, unchanged record. -/
theorem c10_rescan_same_alerts_but_duplicated (certs : List CertRecord)
    (db : List CertificateAlert) (now : Nat) :
    (checkCertificateHealth certs db now).1 = db ++ genAlerts certs now ∧
    (checkCertificateHealth certs
      (checkCertificateHealth certs db now).1 now).1 =
      (db ++ genAlerts certs now) ++ genAlerts certs now ∧
    (checkCertificateHealth certs
      (checkCertificateHealth certs db now).1 now).2 =
      (checkCertificateHealth certs db now).2 := by
  refine ⟨checkCertificateHealth_alerts certs db now, ?_, ?_⟩
  · rw [checkCertificateHealth_alerts certs _ now,
      checkCertificateHealth_alerts certs db now]
  · rw [checkCertificateHealth_trace certs _ now,
      checkCertificateHealth_trace certs db now]

end GridTokenX
